import Mathlib

/-!
# Report Analytics Engine — shallow embedding and verification

This file embeds the analytics core of the Mulika Ufisadi corruption-reporting
platform (the clustering pipeline of `src/lib/ml/clustering.ts`, and the text
analysis / anomaly detection functions of `src/lib`) into Lean, and proves or
refutes the specification's claims about it.

Modelling conventions:
* JavaScript numbers are modelled by `ℚ`.  Every numeric computation of the
  embedded functions is exact rational arithmetic; where the source calls the
  irrational float functions `Math.log` and `Math.sqrt`, those are modelled by
  uninterpreted environment parameters (`lnQ`, `sqrtQ`), and whenever a
  verified property depends on the order behaviour of `Math.sqrt` the embedded
  definition uses the exact squared reformulation instead (documented at the
  definition).
* `Date` values are modelled by their millisecond timestamp (`getTime`).
  Wall-clock reads (`Date.now()`, the calendar computation of "two years
  ago", the timezone-dependent `getHours`) are environment parameters;
  theorems quantify over the environment.
* JavaScript `Map` (which preserves insertion order) is modelled by an
  association list with in-place update, `Set` by first-seen deduplication.
* Fallible code (`throw` / `try`-`catch`) is modelled with `Except String`,
  the error value being the thrown message.
-/

namespace Mulika

/-! ## Data model (src/types/report.ts)

Only the fields read by the analytics engine are modelled; the remaining
`Report` fields (anonymousId, evidence, location, contactMethod, status,
verificationScore) are never accessed by the functions verified here. -/

inductive Agency where
  | police | landServices | civilRegistration | judiciary | motorVehicle
  | businessLicensing | education | health | tax | hudumaCenter | other
deriving DecidableEq, Repr

inductive Category where
  | bribery | extortion | embezzlement | nepotism | procurementFraud
  | landGrabbing | other
deriving DecidableEq, Repr

structure Report where
  id : String
  county : String
  agency : Agency
  categories : List Category
  incidentDate : ℚ
  estimatedAmount : Option ℚ
  description : String
  submittedAt : ℚ
deriving DecidableEq, Repr

/-- Computes `report.estimatedAmount || 0` (JS `||`: both `undefined` and `0`
yield `0`). -/
def amountOf (r : Report) : ℚ := r.estimatedAmount.getD 0

/-! ## Tokenizer (src/lib nlp: cleanText / tokenize) -/

/-- Membership in the JS regex class `\w` = `[A-Za-z0-9_]` (ASCII). -/
def isWordChar (c : Char) : Bool := c.isAlphanum || c = '_'

/-- Membership in the JS regex class `\s` (the whitespace characters that can
occur in the ASCII texts considered here). -/
def isSpaceCharJs (c : Char) : Bool :=
  c = ' ' || c = '\t' || c = '\n' || c = '\r' || c = '\x0b' || c = '\x0c'

/-- Collapses every maximal run of whitespace to a single space: the
`replace(/\s+/g, ' ')` step of `cleanText`.  The boolean argument records
whether the previous character belonged to a whitespace run already replaced. -/
def collapseSpacesAux : Bool → List Char → List Char
  | _, [] => []
  | prevSpace, c :: cs =>
    if isSpaceCharJs c then
      if prevSpace then collapseSpacesAux true cs
      else ' ' :: collapseSpacesAux true cs
    else c :: collapseSpacesAux false cs

def collapseSpaces (l : List Char) : List Char := collapseSpacesAux false l

/-- Removes leading and trailing whitespace (JS `String#trim`). -/
def trimSpaces (l : List Char) : List Char :=
  ((l.dropWhile isSpaceCharJs).reverse.dropWhile isSpaceCharJs).reverse

/-- Embeds `cleanText` (nlp module): lowercase, replace every character that
is neither a word character nor whitespace by a space (the
`replace(/[^\w\s]/g, ' ')` step), collapse whitespace runs, trim. -/
def cleanText (s : String) : String :=
  String.mk (trimSpaces (collapseSpaces
    ((s.toList.map Char.toLower).map
      (fun c => if isWordChar c || isSpaceCharJs c then c else ' '))))

/-- Splitting on the single space character, JS `text.split(' ')` (empty
fragments between consecutive separators are produced, as in JS). -/
def splitOnSpaceAux : List Char → List Char → List (List Char)
  | [], acc => [acc.reverse]
  | c :: cs, acc =>
    if c = ' ' then acc.reverse :: splitOnSpaceAux cs []
    else splitOnSpaceAux cs (c :: acc)

/-- Embeds `tokenize`: split the cleaned text on spaces and drop empty
fragments. -/
def tokenize (s : String) : List String :=
  ((splitOnSpaceAux s.toList []).map String.mk).filter (fun w => w ≠ "")

/-! ## Sentiment (nlp module: NEGATIVE_KEYWORDS / POSITIVE_KEYWORDS /
analyzeSentiment) -/

def NEGATIVE_KEYWORDS : List String :=
  ["corrupt", "bribe", "illegal", "fraud", "theft", "embezzlement",
   "extortion", "demanded", "forced", "threatened", "refused", "denied",
   "stolen", "cheated", "bad", "terrible", "awful", "poor", "unfair",
   "unjust", "wrong", "rushwa", "ufisadi", "wizi", "uongo", "haramu"]

def POSITIVE_KEYWORDS : List String :=
  ["helped", "resolved", "fair", "honest", "transparent", "justice", "good",
   "excellent", "professional", "efficient", "quick", "helpful"]

inductive SentimentLabel where
  | negative | neutral | positive
deriving DecidableEq, Repr

structure Sentiment where
  score : ℚ
  label : SentimentLabel
  confidence : ℚ
deriving DecidableEq, Repr

/-- Accumulates `(score, matchCount)` over the words exactly as the
`words.forEach` loop of `analyzeSentiment` does: a negative-lexicon word
decrements the raw score, otherwise a positive-lexicon word increments it;
either kind increments `matchCount`. -/
def sentimentCounts (words : List String) : ℤ × ℕ :=
  words.foldl
    (fun acc w =>
      if w ∈ NEGATIVE_KEYWORDS then (acc.1 - 1, acc.2 + 1)
      else if w ∈ POSITIVE_KEYWORDS then (acc.1 + 1, acc.2 + 1)
      else acc)
    (0, 0)

/-- The label branch of `analyzeSentiment`: negative below `-0.2`, positive
above `0.2`, else neutral. -/
def sentimentLabelOf (normalizedScore : ℚ) : SentimentLabel :=
  if normalizedScore < -(1/5) then SentimentLabel.negative
  else if (1/5) < normalizedScore then SentimentLabel.positive
  else SentimentLabel.neutral

/-- Embeds `analyzeSentiment(words, text)` (the `text` argument is unused by
the source body and omitted here). -/
def analyzeSentiment (words : List String) : Sentiment :=
  let sc := sentimentCounts words
  let normalizedScore : ℚ := if 0 < sc.2 then (sc.1 : ℚ) / (sc.2 : ℚ) else 0
  let confidence : ℚ := min ((sc.2 : ℚ) / 10) 1
  { score := normalizedScore, label := sentimentLabelOf normalizedScore,
    confidence := confidence }

/-- Number of tokens that hit the negative lexicon. -/
def negMatches (words : List String) : ℕ :=
  words.countP (fun w => decide (w ∈ NEGATIVE_KEYWORDS))

/-- Number of tokens that hit the positive lexicon. -/
def posMatches (words : List String) : ℕ :=
  words.countP (fun w => decide (w ∈ POSITIVE_KEYWORDS))

/-! ## Similarity (nlp module: calculateTextSimilarity) -/

/-- Token set of a text, as the source builds it: `new Set(tokenize(cleanText(t)))`. -/
def tokenSet (t : String) : Finset String := (tokenize (cleanText t)).toFinset

/-- Embeds `calculateTextSimilarity`: Jaccard index of the two token sets,
`0` when the union is empty. -/
def calculateTextSimilarity (t1 t2 : String) : ℚ :=
  let words1 := tokenSet t1
  let words2 := tokenSet t2
  let inter := words1 ∩ words2
  let union := words1 ∪ words2
  if 0 < union.card then (inter.card : ℚ) / (union.card : ℚ) else 0

/-! ## Anomaly detection (src/lib anomaly module)

Environment parameters model the ambient-world reads of the source:
`Date.now()`, the calendar computation `new Date(); setFullYear(year - 2)`,
the timezone-dependent `Date#getHours`, and the float `Math.sqrt` (which is
uninterpreted: every theorem below that depends on the order behaviour of a
square root uses the exact squared reformulation in the definition instead,
see `detectAmountAnomalies`). -/

structure DetectEnv where
  now : ℚ
  twoYearsAgo : ℚ
  hourOf : ℚ → ℤ
  sqrtQ : ℚ → ℚ

inductive AnomalyType where
  | unusualAmount | frequencySpike | geographicOutlier | timingAnomaly
  | patternDeviation
deriving DecidableEq, Repr

inductive Severity where
  | low | medium | high
deriving DecidableEq, Repr

/-- Embeds the `Anomaly` record.  The heterogeneous debug payload `details`
(a `Record<string, unknown>` never read by the engine) is not modelled. -/
structure Anomaly where
  reportId : String
  anomalyType : AnomalyType
  severity : Severity
  reason : String
  score : ℚ
deriving DecidableEq, Repr

structure AnomalyStatistics where
  totalReports : ℕ
  anomalyCount : ℕ
  anomalyRate : ℚ
  avgAnomalyScore : ℚ
  typeDistribution : List (AnomalyType × ℕ)
deriving DecidableEq, Repr

structure AnomalyDetectionResult where
  anomalies : List Anomaly
  normalReports : List Report
  statistics : AnomalyStatistics
deriving DecidableEq, Repr

/-- Computes `r.estimatedAmount && r.estimatedAmount > 0` from the amount
filter of `detectAmountAnomalies`. -/
def hasPositiveAmount (r : Report) : Bool :=
  match r.estimatedAmount with
  | some a => decide (0 < a)
  | none => false

/-- Embeds `detectAmountAnomalies`.

The source computes `stdDev = Math.sqrt(variance)` and
`zScore = Math.abs((amount - mean) / stdDev)`, then tests `zScore > 2`,
`zScore > 3`, `zScore > 2.5` and stores `Math.min(100, zScore * 20)`.
Because `zScore = sqrt(zSq)` with `zSq = (amount - mean)^2 / variance` and
all thresholds are nonnegative, each test `zScore > c` is exactly
`zSq > c^2` whenever `variance > 0`; the embedding uses those squared forms,
which keeps every branch condition exact rational arithmetic.  When
`variance = 0` every amount equals the mean, the source computes
`Math.abs(0 / 0) = NaN`, and every `NaN > c` comparison is false, so nothing
is flagged; this matches the embedding, where division by zero yields `0`
and `zSq = 0` fails every test.  The stored score `min(100, zScore * 20)
= min(100, 20 * sqrt(zSq))` is the only place a square-root value survives
into the output; it is modelled with the uninterpreted `env.sqrtQ`. -/
def detectAmountAnomalies (env : DetectEnv) (reports : List Report) :
    List Anomaly :=
  let reportsWithAmounts := reports.filter hasPositiveAmount
  if reportsWithAmounts.length < 3 then []
  else
    let amounts := reportsWithAmounts.map amountOf
    let mean := amounts.sum / (amounts.length : ℚ)
    let variance :=
      ((amounts.map (fun a => (a - mean) ^ 2)).sum) / (amounts.length : ℚ)
    reportsWithAmounts.filterMap (fun r =>
      let zSq := (amountOf r - mean) ^ 2 / variance
      if 4 < zSq then
        some
          { reportId := r.id
            anomalyType := AnomalyType.unusualAmount
            severity :=
              if 9 < zSq then Severity.high
              else if 25/4 < zSq then Severity.medium
              else Severity.low
            reason := "Amount is more than 2 standard deviations from the mean"
            score := min 100 (20 * env.sqrtQ zSq) }
      else none)

/-- String value of the `Agency` enum member (src/types/report.ts). -/
def agencyToString : Agency → String
  | Agency.police => "police"
  | Agency.landServices => "land_services"
  | Agency.civilRegistration => "civil_registration"
  | Agency.judiciary => "judiciary"
  | Agency.motorVehicle => "motor_vehicle"
  | Agency.businessLicensing => "business_licensing"
  | Agency.education => "education"
  | Agency.health => "health"
  | Agency.tax => "tax"
  | Agency.hudumaCenter => "huduma_center"
  | Agency.other => "other"

/-- Group key of `detectFrequencySpikes`. -/
def groupKey (r : Report) : String := r.county ++ ":" ++ agencyToString r.agency

/-- Appends `r` to the group stored under `key`, creating the group at the
end on a miss — JS `Map` update semantics (`set` keeps the position of an
existing key, a fresh key is appended in insertion order). -/
def insertGrouped (key : String) (r : Report) :
    List (String × List Report) → List (String × List Report)
  | [] => [(key, [r])]
  | (k, g) :: rest =>
    if k = key then (k, g ++ [r]) :: rest
    else (k, g) :: insertGrouped key r rest

/-- Groups reports by `county:agency` preserving insertion order. -/
def groupByCountyAgency (reports : List Report) :
    List (String × List Report) :=
  reports.foldl (fun acc r => insertGrouped (groupKey r) r acc) []

def dayMs : ℚ := 24 * 60 * 60 * 1000

def yearMs : ℚ := 365 * 24 * 60 * 60 * 1000

/-- Anomaly pushed for each report of a detected frequency spike window. -/
def spikeAnomaly (key : String) (count : ℕ) (r : Report) : Anomaly :=
  { reportId := r.id
    anomalyType := AnomalyType.frequencySpike
    severity :=
      if 10 ≤ count then Severity.high
      else if 7 ≤ count then Severity.medium
      else Severity.low
    reason := "Part of multiple reports submitted within 24 hours for " ++ key
    score := min 100 ((count : ℚ) * 10) }

/-- Embeds the sliding-window scan of `detectFrequencySpikes` over one
date-sorted group.  The source loop runs while at least 5 reports remain
(`i < sorted.length - 4`); the inner loop collects the reports within 24
hours of the window head and breaks at the first report beyond it
(`takeWhile`); after flagging a window of `count` reports the cursor jumps
past the whole window (`i += count - 1` followed by the loop increment). -/
def scanSpikes (key : String) : List Report → List Anomaly
  | [] => []
  | r :: rest =>
    if rest.length + 1 < 5 then []
    else
      let windowRest :=
        rest.takeWhile (fun s => decide (s.submittedAt ≤ r.submittedAt + dayMs))
      let count := windowRest.length + 1
      if 5 ≤ count then
        ((r :: windowRest).map (spikeAnomaly key count)) ++
          scanSpikes key (rest.drop windowRest.length)
      else scanSpikes key rest
termination_by l => l.length
decreasing_by
  · simp only [List.length_drop, List.length_cons]
    omega
  · simp

/-- Embeds `detectFrequencySpikes`: group by county and agency, skip groups
with fewer than 5 reports, sort each group by submission time ascending
(the JS comparator `a.submittedAt - b.submittedAt`), scan for 24-hour
windows holding at least 5 reports. -/
def detectFrequencySpikes (reports : List Report) : List Anomaly :=
  ((groupByCountyAgency reports).map (fun kg =>
    if kg.2.length < 5 then []
    else
      scanSpikes kg.1
        (kg.2.insertionSort (fun a b => a.submittedAt ≤ b.submittedAt)))).flatten

/-- Increments the count stored under `key`, appending a fresh key at the
end — JS `Map` counting idiom `map.set(k, (map.get(k) || 0) + 1)`. -/
def bumpCount {κ : Type} [DecidableEq κ] (key : κ) :
    List (κ × ℕ) → List (κ × ℕ)
  | [] => [(key, 1)]
  | (k, n) :: rest =>
    if k = key then (k, n + 1) :: rest else (k, n) :: bumpCount key rest

/-- Occurrence counts of the elements of `keys` in first-seen order. -/
def countListOf {κ : Type} [DecidableEq κ] (keys : List κ) : List (κ × ℕ) :=
  keys.foldl (fun acc k => bumpCount k acc) []

/-- Adds one report's county to the nested agency → county-count map of
`detectGeographicAnomalies`. -/
def bumpAgencyCounty (ag : Agency) (county : String) :
    List (Agency × List (String × ℕ)) → List (Agency × List (String × ℕ))
  | [] => [(ag, [(county, 1)])]
  | (a, m) :: rest =>
    if a = ag then (a, bumpCount county m) :: rest
    else (a, m) :: bumpAgencyCounty ag county rest

def agencyCountyDist (reports : List Report) :
    List (Agency × List (String × ℕ)) :=
  reports.foldl (fun acc r => bumpAgencyCounty r.agency r.county acc) []

/-- Embeds `detectGeographicAnomalies`: for each agency with at least 10
reports, flag each county holding less than 2 percent of that agency's
reports and at most 2 reports absolutely; each matching report gets a
low-severity anomaly with score `max(10, 100 - percentage * 10)`. -/
def detectGeographicAnomalies (reports : List Report) : List Anomaly :=
  ((agencyCountyDist reports).map (fun agm =>
    let total := (agm.2.map (fun cn => cn.2)).sum
    if total < 10 then []
    else
      (agm.2.map (fun cn =>
        let percentage : ℚ := ((cn.2 : ℚ) / (total : ℚ)) * 100
        if percentage < 2 ∧ cn.2 ≤ 2 then
          (reports.filter
              (fun r => decide (r.agency = agm.1 ∧ r.county = cn.1))).map
            (fun r =>
              { reportId := r.id
                anomalyType := AnomalyType.geographicOutlier
                severity := Severity.low
                reason := "Unusual county for this agency"
                score := max 10 (100 - percentage * 10) })
        else [])).flatten)).flatten

/-- Anomaly pushed for a report submitted between 02:00 and 05:00. -/
def hourAnomaly (r : Report) : Anomaly :=
  { reportId := r.id
    anomalyType := AnomalyType.timingAnomaly
    severity := Severity.low
    reason := "Report submitted at unusual hour"
    score := 30 }

/-- Anomaly pushed for a report whose incident date predates the detector's
two-years-ago mark; `yearsDiff = (Date.now() - incidentDate) / 365 days`. -/
def oldIncidentAnomaly (env : DetectEnv) (r : Report) : Anomaly :=
  let yearsDiff := (env.now - r.incidentDate) / yearMs
  { reportId := r.id
    anomalyType := AnomalyType.timingAnomaly
    severity := if 5 < yearsDiff then Severity.medium else Severity.low
    reason := "Incident occurred years ago"
    score := min 70 (yearsDiff * 15) }

/-- Embeds `detectTimingAnomalies`: the first pass flags every report whose
local submission hour satisfies `2 <= hour < 5`; the second pass flags every
report with `incidentDate < twoYearsAgo`, where `twoYearsAgo` is computed
from the current wall-clock date (not from the report's submission date). -/
def detectTimingAnomalies (env : DetectEnv) (reports : List Report) :
    List Anomaly :=
  (reports.filterMap (fun r =>
    let hour := env.hourOf r.submittedAt
    if 2 ≤ hour ∧ hour < 5 then some (hourAnomaly r) else none)) ++
  (reports.filterMap (fun r =>
    if r.incidentDate < env.twoYearsAgo then some (oldIncidentAnomaly env r)
    else none))

/-- Embeds one `anomalyMap.set` step of `deduplicateAnomalies`: replace the
entry under the same reportId when the new score is strictly higher
(keeping the entry's position, as JS `Map#set` does), append a fresh
reportId at the end. -/
def upsertAnomaly (a : Anomaly) :
    List (String × Anomaly) → List (String × Anomaly)
  | [] => [(a.reportId, a)]
  | (k, v) :: rest =>
    if k = a.reportId then
      if v.score < a.score then (k, a) :: rest else (k, v) :: rest
    else (k, v) :: upsertAnomaly a rest

/-- Association-list lookup used only by the verification layer. -/
def lookupA : List (String × Anomaly) → String → Option Anomaly
  | [], _ => none
  | (k, v) :: rest, key => if k = key then some v else lookupA rest key

/-- The reportId-keyed map built by `deduplicateAnomalies`. -/
def dedupMap (anomalies : List Anomaly) : List (String × Anomaly) :=
  anomalies.foldl (fun acc a => upsertAnomaly a acc) []

/-- Embeds `deduplicateAnomalies`: keep the highest-scoring anomaly per
reportId (the first one on ties), then sort descending by score (the JS
comparator `b.score - a.score`). -/
def deduplicateAnomalies (anomalies : List Anomaly) : List Anomaly :=
  ((dedupMap anomalies).map Prod.snd).insertionSort
    (fun a b => b.score ≤ a.score)

def anomalyTypeList : List AnomalyType :=
  [AnomalyType.unusualAmount, AnomalyType.frequencySpike,
   AnomalyType.geographicOutlier, AnomalyType.timingAnomaly,
   AnomalyType.patternDeviation]

/-- Embeds `calculateAnomalyStatistics`.  The `typeDistribution` record is
initialized with all five types at zero and incremented per anomaly; the
result is the per-type count list below. -/
def calculateAnomalyStatistics (allReports : List Report)
    (anomalies : List Anomaly) : AnomalyStatistics :=
  { totalReports := allReports.length
    anomalyCount := anomalies.length
    anomalyRate :=
      if 0 < allReports.length then
        ((anomalies.length : ℚ) / (allReports.length : ℚ)) * 100
      else 0
    avgAnomalyScore :=
      if 0 < anomalies.length then
        (anomalies.map (fun a => a.score)).sum / (anomalies.length : ℚ)
      else 0
    typeDistribution :=
      anomalyTypeList.map
        (fun t => (t, anomalies.countP (fun a => decide (a.anomalyType = t)))) }

/-- The concatenated detector outputs, in the push order of `detectAnomalies`. -/
def rawAnomalies (env : DetectEnv) (reports : List Report) : List Anomaly :=
  detectAmountAnomalies env reports ++ detectFrequencySpikes reports ++
    detectGeographicAnomalies reports ++ detectTimingAnomalies env reports

/-- Embeds `detectAnomalies`: the empty batch returns the all-zero result
(the source's empty `typeDistribution` record `{}` is the empty list here);
otherwise run the four detectors, deduplicate, and take the complement for
`normalReports`. -/
def detectAnomalies (env : DetectEnv) (reports : List Report) :
    AnomalyDetectionResult :=
  if reports.length = 0 then
    { anomalies := []
      normalReports := []
      statistics :=
        { totalReports := 0, anomalyCount := 0, anomalyRate := 0,
          avgAnomalyScore := 0, typeDistribution := [] } }
  else
    let uniqueAnomalies := deduplicateAnomalies (rawAnomalies env reports)
    let anomalyIds := uniqueAnomalies.map (fun a => a.reportId)
    { anomalies := uniqueAnomalies
      normalReports := reports.filter (fun r => decide (r.id ∉ anomalyIds))
      statistics := calculateAnomalyStatistics reports uniqueAnomalies }

/-! ## Clustering (src/lib/ml/clustering.ts)

The TensorFlow tensors of the source are modelled as rational matrices
(`List (List ℚ)`); `tensor2d`, `gather`, `argMin`, `mean` and `stack`
become the corresponding list operations.  The two random sources
(`tf.util.createShuffledIndices(n).slice(0, k)` for the initial centroids
and `tf.randomUniform` for empty-cluster replacement) are parameters
(`initIdx`, `rnd`); theorems quantify over them. -/

structure ClusterEnv where
  lnQ : ℚ → ℚ
  now : ℚ

inductive TimePattern where
  | recent | historical | mixed
deriving DecidableEq, Repr

structure ClusterCharacteristics where
  dominantAgency : Agency
  averageAmount : ℚ
  reportCount : ℕ
  commonCounties : List String
  timePattern : TimePattern
deriving DecidableEq, Repr

structure Cluster where
  id : ℕ
  centroid : List ℚ
  reports : List Report
  characteristics : ClusterCharacteristics
deriving DecidableEq, Repr

/-- The agencies array of `hashAgency`, in source order. -/
def agencyEnumList : List Agency :=
  [Agency.police, Agency.landServices, Agency.civilRegistration,
   Agency.judiciary, Agency.motorVehicle, Agency.businessLicensing,
   Agency.education, Agency.health, Agency.tax, Agency.hudumaCenter,
   Agency.other]

/-- Embeds `hashAgency`: `agencies.indexOf(agency) + 1` (every `Agency`
value occurs in the array, so `indexOf` never returns `-1`). -/
def hashAgency (agency : Agency) : ℕ := agencyEnumList.indexOf agency + 1

/-- First-seen deduplication: JS `Array.from(new Set(xs))`. -/
def uniqueFirstSeen (l : List String) : List String :=
  l.foldl (fun acc c => if c ∈ acc then acc else acc ++ [c]) []

/-- Embeds `createCountyMap`: distinct counties of the batch, in first-seen
order, mapped to their position. -/
def createCountyMap (reports : List Report) : List (String × ℕ) :=
  (uniqueFirstSeen (reports.map (fun r => r.county))).enum.map
    (fun p => (p.2, p.1))

/-- Computes `countyMap.get(report.county) || 0` (a missing county and the
county at index 0 both give 0). -/
def countyIndexOf (m : List (String × ℕ)) (county : String) : ℕ :=
  ((m.find? (fun p => decide (p.1 = county))).map (fun p => p.2)).getD 0

/-- Embeds `reportToVector`.  `Math.log(amount + 1)` is the uninterpreted
environment parameter `lnQ`; no verified property depends on its values. -/
def reportToVector (env : ClusterEnv) (countyMap : List (String × ℕ))
    (r : Report) : List ℚ :=
  let countyIndex := countyIndexOf countyMap r.county
  let agencyHash := hashAgency r.agency
  let amount := amountOf r
  let timestamp := r.incidentDate
  let categoryCount := r.categories.length
  [(countyIndex : ℚ) / 47, (agencyHash : ℚ) / 11, env.lnQ (amount + 1) / 20,
   timestamp / 1000000000000, (categoryCount : ℚ) / 7]

/-- Squared Euclidean distance: `sum(square(sub(point, centroid)))`. -/
def sqDist (v w : List ℚ) : ℚ := ((v.zip w).map (fun p => (p.1 - p.2) ^ 2)).sum

/-- Index accumulator for `argMinIdx`; keeps the first index attaining the
minimum, as `tf.argMin` does. -/
def argMinAux : ℕ → ℕ → ℚ → List ℚ → ℕ
  | _, best, _, [] => best
  | i, best, bestVal, x :: xs =>
    if x < bestVal then argMinAux (i + 1) i x xs
    else argMinAux (i + 1) best bestVal xs

/-- Embeds `tf.argMin` along a row of distances. -/
def argMinIdx : List ℚ → ℕ
  | [] => 0
  | x :: xs => argMinAux 1 0 x xs

/-- Embeds `assignToCentroids`: each data point goes to the centroid with
minimal squared distance. -/
def assignToCentroids (data centroids : List (List ℚ)) : List ℕ :=
  data.map (fun v => argMinIdx (centroids.map (fun c => sqDist v c)))

/-- Embeds `tf.gather(data, indices)`. -/
def gatherRows (data : List (List ℚ)) (idx : List ℕ) : List (List ℚ) :=
  idx.map (fun i => data.getD i [])

/-- Per-feature mean of a set of points: `tf.mean(points, 0)`. -/
def meanVec (pts : List (List ℚ)) : List ℚ :=
  pts.transpose.map (fun col => col.sum / (pts.length : ℚ))

/-- The per-cluster centroids that the `.then` callbacks of
`updateCentroids` eventually compute: the mean of the points assigned to
cluster `i`, or the fresh random vector `rnd i` (modelling
`tf.randomUniform([numFeatures])`) when no point is assigned to `i`. -/
def updateCentroidsDeferred (data : List (List ℚ)) (assignments : List ℕ)
    (k : ℕ) (rnd : ℕ → List ℚ) : List (List ℚ) :=
  (List.range k).map (fun i =>
    let clusterPoints :=
      ((data.zip assignments).filter (fun p => decide (p.2 = i))).map
        (fun p => p.1)
    if 0 < clusterPoints.length then meanVec clusterPoints else rnd i)

/-- Faithful model of `updateCentroids` (clustering.ts lines 238-268).

The source obtains each cluster's points with `tf.booleanMaskAsync`, a
`Promise`, and registers a `.then` callback that pushes the cluster mean
(or a random vector for an empty cluster) onto the local `newCentroids`
array.  Those promises are never awaited, and JavaScript runs promise
callbacks only after the enclosing synchronous call has returned; so when
`tf.stack(newCentroids)` executes, `newCentroids` is still empty, and
`tf.stack` of an empty tensor list throws.  `updateCentroidsDeferred`
above records what the callbacks would eventually have pushed;
`updateCentroids` itself deterministically raises the stack error. -/
def updateCentroids (data : List (List ℚ)) (assignments : List ℕ)
    (k _numFeatures : ℕ) (rnd : ℕ → List ℚ) : Except String (List (List ℚ)) :=
  let _deferredPushes := updateCentroidsDeferred data assignments k rnd
  let newCentroids : List (List ℚ) := []
  if newCentroids.length = 0 then
    Except.error "Pass at least one tensor to tf.stack"
  else Except.ok newCentroids

/-- Embeds the iteration of `kMeans`: compute the new assignments, stop
when they equal the previous ones, otherwise update the centroids (which,
per `updateCentroids`, raises) and recurse; the fuel is `maxIterations`. -/
def kMeansLoop (data : List (List ℚ)) (k numFeatures : ℕ)
    (rnd : ℕ → ℕ → List ℚ) :
    ℕ → List (List ℚ) → List ℕ → Except String (List (List ℚ) × List ℕ)
  | 0, centroids, assignments => Except.ok (centroids, assignments)
  | fuel + 1, centroids, assignments =>
    let newAssignments := assignToCentroids data centroids
    if newAssignments = assignments then Except.ok (centroids, newAssignments)
    else
      match updateCentroids data newAssignments k numFeatures (rnd fuel) with
      | Except.error e => Except.error e
      | Except.ok newCentroids =>
        kMeansLoop data k numFeatures rnd fuel newCentroids newAssignments

/-- Embeds `kMeans`: initial centroids are the rows at the shuffled indices
`initIdx`, initial assignments are all zero (`tf.zeros`). -/
def kMeans (data : List (List ℚ)) (k : ℕ) (initIdx : List ℕ)
    (rnd : ℕ → ℕ → List ℚ) (maxIterations : ℕ) :
    Except String (List (List ℚ) × List ℕ) :=
  let numFeatures := (data.headD []).length
  kMeansLoop data k numFeatures rnd maxIterations (gatherRows data initIdx)
    (List.replicate data.length 0)

def sixMonthsMs : ℚ := 6 * 30 * 24 * 60 * 60 * 1000

/-- The time-pattern branch of `analyzeCluster`: `recent` above 70 percent
of members with a recent incident, `historical` below 30, else `mixed`. -/
def timePatternOf (recentPercentage : ℚ) : TimePattern :=
  if 70 < recentPercentage then TimePattern.recent
  else if recentPercentage < 30 then TimePattern.historical
  else TimePattern.mixed

/-- The JS reduce `(a, b) => a[1] > b[1] ? a : b` over a nonempty list
(`none` for the empty list, on which the source `reduce` would throw). -/
def reduceMaxPair {α : Type} : List (α × ℕ) → Option (α × ℕ)
  | [] => none
  | e :: rest => some (rest.foldl (fun a b => if b.2 < a.2 then a else b) e)

def agencyCountList (reports : List Report) : List (Agency × ℕ) :=
  countListOf (reports.map (fun r => r.agency))

def countyCountList (reports : List Report) : List (String × ℕ) :=
  countListOf (reports.map (fun r => r.county))

/-- Embeds `analyzeCluster`.  The source's `reduce` over the agency counts
throws on an empty array; `clusterReports` only materializes non-empty
clusters, so the `Agency.other` fallback of the empty case is unreachable
from `clusterReports`, and the cluster-characteristics theorems assume a
non-empty member list. -/
def analyzeCluster (now : ℚ) (reports : List Report) :
    ClusterCharacteristics :=
  let agencyCounts := agencyCountList reports
  let dominantAgency :=
    ((reduceMaxPair agencyCounts).map (fun p => p.1)).getD Agency.other
  let amounts := (reports.map amountOf).filter (fun a => decide (0 < a))
  let averageAmount :=
    if 0 < amounts.length then amounts.sum / (amounts.length : ℚ) else 0
  let countyCounts := countyCountList reports
  let commonCounties :=
    ((countyCounts.insertionSort (fun a b => b.2 ≤ a.2)).take 3).map
      (fun p => p.1)
  let sixMonthsAgo := now - sixMonthsMs
  let recentCount :=
    (reports.filter (fun r => decide (sixMonthsAgo < r.incidentDate))).length
  let recentPercentage : ℚ := ((recentCount : ℚ) / (reports.length : ℚ)) * 100
  let timePattern := timePatternOf recentPercentage
  { dominantAgency := dominantAgency
    averageAmount := averageAmount
    reportCount := reports.length
    commonCounties := commonCounties
    timePattern := timePattern }

/-- The message thrown at clustering.ts line 105 when the batch is smaller
than `k`; the spec's taxonomy calls this classification InsufficientData. -/
def insufficientDataMessage (k : ℕ) : String :=
  "Not enough reports for " ++ toString k ++
    " clusters. Need at least " ++ toString k ++ " reports."

/-- The member reports of cluster `i`:
`reports.filter((_, idx) => assignmentValues[idx] === i)`, rendered as a
filter of the report/assignment pairs. -/
def clusterMembers (reports : List Report) (assignments : List ℕ) (i : ℕ) :
    List Report :=
  ((reports.zip assignments).filter (fun p => decide (p.2 = i))).map
    (fun p => p.1)

/-- Materializes the clusters from the assignment vector: for each index
`i < k`, the reports whose assignment equals `i`, kept only when non-empty. -/
def buildClusters (now : ℚ) (reports : List Report) (assignments : List ℕ)
    (centroidValues : List (List ℚ)) (k : ℕ) : List Cluster :=
  (List.range k).filterMap (fun i =>
    let clusterRs := clusterMembers reports assignments i
    if 0 < clusterRs.length then
      some
        { id := i
          centroid := centroidValues.getD i []
          reports := clusterRs
          characteristics := analyzeCluster now clusterRs }
    else none)

/-- The body of the `try` block of `clusterReports`. -/
def clusterReportsInner (env : ClusterEnv) (initIdx : List ℕ)
    (rnd : ℕ → ℕ → List ℚ) (reports : List Report) (k : ℕ) :
    Except String (List Cluster) :=
  if reports.length < k then Except.error (insufficientDataMessage k)
  else
    let countyMap := createCountyMap reports
    let vectors := reports.map (reportToVector env countyMap)
    match kMeans vectors k initIdx rnd 100 with
    | Except.error e => Except.error e
    | Except.ok ca => Except.ok (buildClusters env.now reports ca.2 ca.1 k)

/-- Embeds `clusterReports`: the `catch` block replaces every error thrown
inside the `try` block (including the insufficient-data one) with the
generic message before rethrowing. -/
def clusterReports (env : ClusterEnv) (initIdx : List ℕ)
    (rnd : ℕ → ℕ → List ℚ) (reports : List Report) (k : ℕ) :
    Except String (List Cluster) :=
  match clusterReportsInner env initIdx rnd reports k with
  | Except.ok v => Except.ok v
  | Except.error _ => Except.error "Failed to cluster reports"

/-! ## Fixtures for witnesses and counterexamples

Concrete environments and reports used to instantiate the theorems below.
`hourOfUtc` is the UTC wall clock (a concrete realization of the
timezone-dependent `Date#getHours` for nonnegative timestamps); the
`twoYearsAgo` values are `now` minus 730 days, realizing the source's
calendar computation for analysis dates whose two preceding years contain
no leap day. -/

def hourOfUtc (t : ℚ) : ℤ := (Int.floor (t / 3600000)) % 24

def sampleReport (i county : String) (ag : Agency) (amt : Option ℚ)
    (inc sub : ℚ) : Report :=
  { id := i, county := county, agency := ag, categories := [Category.bribery],
    incidentDate := inc, estimatedAmount := amt, description := "d",
    submittedAt := sub }

def envC6 : DetectEnv :=
  { now := 0, twoYearsAgo := -730 * dayMs, hourOf := hourOfUtc,
    sqrtQ := fun _ => 0 }

/-- The spec's amount-detector example batch: amounts 100, 105, 98, 102,
100000, all submitted at the epoch. -/
def batchC6 : List Report :=
  [sampleReport "r1" "Nairobi" Agency.police (some 100) 0 0,
   sampleReport "r2" "Nairobi" Agency.police (some 105) 0 0,
   sampleReport "r3" "Nairobi" Agency.police (some 98) 0 0,
   sampleReport "r4" "Nairobi" Agency.police (some 102) 0 0,
   sampleReport "r5" "Nairobi" Agency.police (some 100000) 0 0]

def envC7 : DetectEnv :=
  { now := 4000 * dayMs, twoYearsAgo := 3270 * dayMs, hourOf := hourOfUtc,
    sqrtQ := fun _ => 0 }

/-- Incident 1095 days (3 years) before the analysis time, submitted 800
days (about 2.19 years) after the incident, at midnight UTC. -/
def rptC7 : Report :=
  sampleReport "c7" "Nairobi" Agency.police none (2905 * dayMs) (3705 * dayMs)

/-- Environment whose clock reads 03:30 UTC at the witness submission time. -/
def envNight : DetectEnv :=
  { now := 12600000, twoYearsAgo := 12600000 - 730 * dayMs,
    hourOf := hourOfUtc, sqrtQ := fun _ => 0 }

def rptNight : Report :=
  sampleReport "w" "Nairobi" Agency.police none 12600000 12600000

def anomalyAmount40 : Anomaly :=
  { reportId := "x", anomalyType := AnomalyType.unusualAmount,
    severity := Severity.medium, reason := "amount", score := 40 }

def anomalyTiming70 : Anomaly :=
  { reportId := "x", anomalyType := AnomalyType.timingAnomaly,
    severity := Severity.medium, reason := "timing", score := 70 }

def cenv0 : ClusterEnv := { lnQ := fun _ => 0, now := 0 }

def rnd0 : ℕ → ℕ → List ℚ := fun _ _ => []

def rptC1 : Report :=
  sampleReport "a" "Nairobi" Agency.police (some 5) 3 4

def rptC8a : Report := sampleReport "a" "Nairobi" Agency.police none 0 0

def rptC8b : Report := sampleReport "b" "Kisumu" Agency.tax none 0 0

/-- Sentiment of a text as `analyzeText` computes it:
`analyzeSentiment(tokenize(cleanText(text)))`. -/
def sentimentOf (text : String) : Sentiment :=
  analyzeSentiment (tokenize (cleanText text))

def sentimentMatchCount (text : String) : ℕ :=
  negMatches (tokenize (cleanText text)) + posMatches (tokenize (cleanText text))

/-! Derived values of the amount detector, exactly as the source computes
them (`amounts`, `mean`, `variance`, and the square of `zScore`); used to
state the amount-detector claims. -/

def amountsOf (reports : List Report) : List ℚ :=
  (reports.filter hasPositiveAmount).map amountOf

def amountMean (reports : List Report) : ℚ :=
  (amountsOf reports).sum / ((amountsOf reports).length : ℚ)

def amountVariance (reports : List Report) : ℚ :=
  ((amountsOf reports).map (fun a => (a - amountMean reports) ^ 2)).sum /
    ((amountsOf reports).length : ℚ)

/-- Square of the source's `zScore` for report `r`; see
`detectAmountAnomalies` for the argument that comparing `zScoreSq` against
squared thresholds is exactly the source's comparison of `zScore`. -/
def zScoreSq (reports : List Report) (r : Report) : ℚ :=
  (amountOf r - amountMean reports) ^ 2 / amountVariance reports

/-- The anomaly record the amount detector pushes for a flagged report. -/
def amountAnomalyFor (env : DetectEnv) (reports : List Report) (r : Report) :
    Anomaly :=
  { reportId := r.id
    anomalyType := AnomalyType.unusualAmount
    severity :=
      if 9 < zScoreSq reports r then Severity.high
      else if 25/4 < zScoreSq reports r then Severity.medium
      else Severity.low
    reason := "Amount is more than 2 standard deviations from the mean"
    score := min 100 (20 * env.sqrtQ (zScoreSq reports r)) }

def rptC6w : Report := sampleReport "w6" "Nairobi" Agency.police (some 100) 0 0

/-- Six reports with amounts 1, 1, 1, 1, 1, 100: the mean is 17.5, the
population variance 1361.25, and the squared z-score of the 100 report is
exactly 5, so that report (alone) is flagged with low severity. -/
def batchC6w : List Report :=
  [sampleReport "w1" "Nairobi" Agency.police (some 1) 0 0,
   sampleReport "w2" "Nairobi" Agency.police (some 1) 0 0,
   sampleReport "w3" "Nairobi" Agency.police (some 1) 0 0,
   sampleReport "w4" "Nairobi" Agency.police (some 1) 0 0,
   sampleReport "w5" "Nairobi" Agency.police (some 1) 0 0,
   rptC6w]

/-- Association-list lookup for count maps; verification layer only. -/
def lookupC {κ : Type} [DecidableEq κ] : List (κ × ℕ) → κ → Option ℕ
  | [], _ => none
  | (k, n) :: rest, key => if k = key then some n else lookupC rest key

def rptC8c : Report :=
  sampleReport "c" "Nairobi" Agency.police (some 10) 0 0

def rptC8d : Report :=
  sampleReport "e" "Kisumu" Agency.tax (some 30) 0 0

/-- A three-member cluster: two police reports from Nairobi (one with
amount 10), one tax report from Kisumu (amount 30). -/
def clusterW : List Report :=
  [rptC8c, sampleReport "m" "Nairobi" Agency.police none 0 0, rptC8d]

/-! ## Verification -/

/-- Claim C10: `detectAnomalies` applied to the empty batch does not throw;
it returns empty anomaly and normal-report lists and all-zero statistics. -/
theorem detectAnomalies_empty_batch (env : DetectEnv) :
    (detectAnomalies env []).anomalies = [] ∧
    (detectAnomalies env []).normalReports = [] ∧
    (detectAnomalies env []).statistics.totalReports = 0 ∧
    (detectAnomalies env []).statistics.anomalyCount = 0 ∧
    (detectAnomalies env []).statistics.anomalyRate = 0 ∧
    (detectAnomalies env []).statistics.avgAnomalyScore = 0 :=
  ⟨rfl, rfl, rfl, rfl, rfl, rfl⟩

/-- Claim C9 (amended): the similarity is the Jaccard index of the token
sets, `0` when the union is empty; hence identical texts with a nonempty
token set give `1.0` (identical texts with an empty token set fall into the
empty-union case and give `0`, see the counterexample), and texts with
disjoint vocabularies give `0.0`. -/
theorem calculateTextSimilarity_jaccard :
    (∀ t1 t2 : String,
        calculateTextSimilarity t1 t2 =
          if 0 < (tokenSet t1 ∪ tokenSet t2).card then
            ((tokenSet t1 ∩ tokenSet t2).card : ℚ) /
              ((tokenSet t1 ∪ tokenSet t2).card : ℚ)
          else 0) ∧
    (∀ t : String, (tokenSet t).Nonempty → calculateTextSimilarity t t = 1) ∧
    (∀ t1 t2 : String, tokenSet t1 ∩ tokenSet t2 = ∅ →
        calculateTextSimilarity t1 t2 = 0) := by
  refine ⟨fun t1 t2 => rfl, fun t h => ?_, fun t1 t2 h => ?_⟩
  · have hcard : 0 < (tokenSet t).card := Finset.card_pos.mpr h
    show (if 0 < (tokenSet t ∪ tokenSet t).card then
        ((tokenSet t ∩ tokenSet t).card : ℚ) /
          ((tokenSet t ∪ tokenSet t).card : ℚ)
      else 0) = 1
    rw [Finset.union_self, Finset.inter_self, if_pos hcard]
    exact div_self (by exact_mod_cast hcard.ne')
  · show (if 0 < (tokenSet t1 ∪ tokenSet t2).card then
        ((tokenSet t1 ∩ tokenSet t2).card : ℚ) /
          ((tokenSet t1 ∪ tokenSet t2).card : ℚ)
      else 0) = 0
    by_cases hc : 0 < (tokenSet t1 ∪ tokenSet t2).card
    · rw [if_pos hc, h]
      simp
    · rw [if_neg hc]

/-- Witness for C9: a nonempty identical pair gives 1, a disjoint pair 0. -/
theorem calculateTextSimilarity_jaccard_witness :
    calculateTextSimilarity "police demanded money" "police demanded money" = 1 ∧
    calculateTextSimilarity "police bribe" "land tender" = 0 :=
  ⟨calculateTextSimilarity_jaccard.2.1 "police demanded money" (by decide),
   calculateTextSimilarity_jaccard.2.2 "police bribe" "land tender" (by decide)⟩

/-- Counterexample for C9 as stated: the two texts are identical (both
empty, with empty token sets), yet the similarity is `0`, not `1.0`. -/
theorem calculateTextSimilarity_identical_empty_counterexample :
    calculateTextSimilarity "" "" = 0 ∧ (0 : ℚ) ≠ 1 :=
  ⟨rfl, by norm_num⟩

theorem lexicons_disjoint : ∀ w ∈ NEGATIVE_KEYWORDS, w ∉ POSITIVE_KEYWORDS := by
  decide

theorem sentimentCounts_aux (words : List String) (acc : ℤ × ℕ) :
    words.foldl
        (fun acc w =>
          if w ∈ NEGATIVE_KEYWORDS then (acc.1 - 1, acc.2 + 1)
          else if w ∈ POSITIVE_KEYWORDS then (acc.1 + 1, acc.2 + 1)
          else acc)
        acc =
      (acc.1 + (posMatches words : ℤ) - (negMatches words : ℤ),
        acc.2 + negMatches words + posMatches words) := by
  induction words generalizing acc with
  | nil => simp [negMatches, posMatches]
  | cons w ws ih =>
    simp only [List.foldl_cons]
    by_cases hn : w ∈ NEGATIVE_KEYWORDS
    · have hp : w ∉ POSITIVE_KEYWORDS := lexicons_disjoint w hn
      have hnn : negMatches (w :: ws) = negMatches ws + 1 := by
        simp [negMatches, List.countP_cons, hn]
      have hpp : posMatches (w :: ws) = posMatches ws := by
        simp [posMatches, List.countP_cons, hp]
      rw [if_pos hn, ih, hnn, hpp]
      refine Prod.ext ?_ ?_
      · push_cast
        ring
      · omega
    · by_cases hp : w ∈ POSITIVE_KEYWORDS
      · have hnn : negMatches (w :: ws) = negMatches ws := by
          simp [negMatches, List.countP_cons, hn]
        have hpp : posMatches (w :: ws) = posMatches ws + 1 := by
          simp [posMatches, List.countP_cons, hp]
        rw [if_neg hn, if_pos hp, ih, hnn, hpp]
        refine Prod.ext ?_ ?_
        · push_cast
          ring
        · omega
      · have hnn : negMatches (w :: ws) = negMatches ws := by
          simp [negMatches, List.countP_cons, hn]
        have hpp : posMatches (w :: ws) = posMatches ws := by
          simp [posMatches, List.countP_cons, hp]
        rw [if_neg hn, if_neg hp, ih, hnn, hpp]

theorem sentimentCounts_eq (words : List String) :
    sentimentCounts words =
      ((posMatches words : ℤ) - (negMatches words : ℤ),
        negMatches words + posMatches words) := by
  have h := sentimentCounts_aux words (0, 0)
  simpa [sentimentCounts] using h

set_option maxHeartbeats 1600000 in
/-- Claim C5 (amended): for every input text, with `n` the number of
negative-lexicon token matches, `p` the positive ones and `m = n + p` the
match count, the sentiment satisfies: score is `(p - n) / m` — positive
minus negative, the opposite sign of the claim's formula, see the
counterexample — and `0` when `m = 0`; the label is negative below `-0.2`,
positive above `0.2`, else neutral; confidence is `min(m / 10, 1)`. -/
theorem analyzeSentiment_spec (text : String) :
    (sentimentMatchCount text = 0 → (sentimentOf text).score = 0) ∧
    (0 < sentimentMatchCount text →
      (sentimentOf text).score =
        ((posMatches (tokenize (cleanText text)) : ℚ) -
            (negMatches (tokenize (cleanText text)) : ℚ)) /
          (sentimentMatchCount text : ℚ)) ∧
    (sentimentOf text).confidence = min ((sentimentMatchCount text : ℚ) / 10) 1 ∧
    ((sentimentOf text).label = SentimentLabel.negative ↔
      (sentimentOf text).score < -(1/5)) ∧
    ((sentimentOf text).label = SentimentLabel.positive ↔
      (1/5) < (sentimentOf text).score) ∧
    ((sentimentOf text).label = SentimentLabel.neutral ↔
      (-(1/5) ≤ (sentimentOf text).score ∧ (sentimentOf text).score ≤ 1/5)) := by
  have hcounts := sentimentCounts_eq (tokenize (cleanText text))
  have hm : sentimentMatchCount text =
      negMatches (tokenize (cleanText text)) +
        posMatches (tokenize (cleanText text)) := rfl
  refine ⟨?_, ?_, ?_, ?_⟩
  · intro h0
    have h2 : (sentimentCounts (tokenize (cleanText text))).2 = 0 := by
      rw [hcounts]
      exact hm ▸ h0
    show (if 0 < (sentimentCounts (tokenize (cleanText text))).2 then
        ((sentimentCounts (tokenize (cleanText text))).1 : ℚ) /
          ((sentimentCounts (tokenize (cleanText text))).2 : ℚ)
      else 0) = 0
    rw [h2]
    simp
  · intro hpos
    have h2 : 0 < (sentimentCounts (tokenize (cleanText text))).2 := by
      rw [hcounts]
      exact hm ▸ hpos
    show (if 0 < (sentimentCounts (tokenize (cleanText text))).2 then
        ((sentimentCounts (tokenize (cleanText text))).1 : ℚ) /
          ((sentimentCounts (tokenize (cleanText text))).2 : ℚ)
      else 0) = _
    rw [if_pos h2, hcounts, hm]
    push_cast
    ring
  · show min (((sentimentCounts (tokenize (cleanText text))).2 : ℚ) / 10) 1 = _
    rw [hcounts, hm]
  · have hlabel : (sentimentOf text).label =
        sentimentLabelOf ((sentimentOf text).score) := rfl
    rw [hlabel]
    unfold sentimentLabelOf
    by_cases h1 : (sentimentOf text).score < -(1/5)
    · rw [if_pos h1]
      exact ⟨⟨fun _ => h1, fun _ => rfl⟩,
        ⟨fun h => SentimentLabel.noConfusion h,
          fun h => absurd h1 (not_lt.mpr (le_of_lt (lt_trans (by norm_num) h)))⟩,
        ⟨fun h => SentimentLabel.noConfusion h,
          fun h => absurd h1 (not_lt.mpr h.1)⟩⟩
    · by_cases h2 : (1/5) < (sentimentOf text).score
      · rw [if_neg h1, if_pos h2]
        exact ⟨⟨fun h => SentimentLabel.noConfusion h, fun h => absurd h h1⟩,
          ⟨fun _ => h2, fun _ => rfl⟩,
          ⟨fun h => SentimentLabel.noConfusion h,
            fun h => absurd h2 (not_lt.mpr h.2)⟩⟩
      · rw [if_neg h1, if_neg h2]
        exact ⟨⟨fun h => SentimentLabel.noConfusion h, fun h => absurd h h1⟩,
          ⟨fun h => SentimentLabel.noConfusion h, fun h => absurd h h2⟩,
          ⟨fun _ => ⟨not_lt.mp h1, not_lt.mp h2⟩, fun _ => rfl⟩⟩

/-- Witness for C5: a text with three negative matches and no positive one;
its score is the positive-minus-negative quotient. -/
theorem analyzeSentiment_spec_witness :
    0 < sentimentMatchCount "The officer demanded a bribe and threatened me" ∧
    (sentimentOf "The officer demanded a bribe and threatened me").score =
      ((posMatches (tokenize (cleanText
          "The officer demanded a bribe and threatened me")) : ℚ) -
        (negMatches (tokenize (cleanText
          "The officer demanded a bribe and threatened me")) : ℚ)) /
        (sentimentMatchCount "The officer demanded a bribe and threatened me" : ℚ) :=
  ⟨by decide,
    (analyzeSentiment_spec "The officer demanded a bribe and threatened me").2.1
      (by decide)⟩

/-- Counterexample for C5 as stated: on the text "bribe" the claim's
formula (negative minus positive over match count) evaluates to `1`, but
the computed score is `-1`. -/
theorem analyzeSentiment_sign_counterexample :
    (sentimentOf "bribe").score = -1 ∧
    ((negMatches (tokenize (cleanText "bribe")) : ℚ) -
        (posMatches (tokenize (cleanText "bribe")) : ℚ)) /
      (sentimentMatchCount "bribe" : ℚ) = 1 ∧
    (sentimentOf "bribe").score ≠
      ((negMatches (tokenize (cleanText "bribe")) : ℚ) -
          (posMatches (tokenize (cleanText "bribe")) : ℚ)) /
        (sentimentMatchCount "bribe" : ℚ) := by
  have hsc : sentimentCounts (tokenize (cleanText "bribe")) = (-1, 1) := by
    decide
  have hneg : negMatches (tokenize (cleanText "bribe")) = 1 := by decide
  have hpos : posMatches (tokenize (cleanText "bribe")) = 0 := by decide
  have hmc : sentimentMatchCount "bribe" = 1 := by decide
  have hscore : (sentimentOf "bribe").score = -1 := by
    show (if 0 < (sentimentCounts (tokenize (cleanText "bribe"))).2 then
        ((sentimentCounts (tokenize (cleanText "bribe"))).1 : ℚ) /
          ((sentimentCounts (tokenize (cleanText "bribe"))).2 : ℚ)
      else 0) = -1
    rw [hsc]
    norm_num
  refine ⟨hscore, ?_, ?_⟩
  · rw [hneg, hpos, hmc]
    norm_num
  · rw [hscore, hneg, hpos, hmc]
    norm_num

/-- Claim C2 (amended): calling `clusterReports` with fewer reports than
clusters raises an error rather than returning clusters — but the
insufficient-data error thrown inside the `try` block is caught by the
`catch` block and replaced by the generic clustering-failure error, so the
caller observes the same classification as for any other internal failure,
not an InsufficientData-classified error (see the counterexample). -/
theorem clusterReports_insufficient (env : ClusterEnv) (initIdx : List ℕ)
    (rnd : ℕ → ℕ → List ℚ) (reports : List Report) (k : ℕ)
    (h : reports.length < k) :
    clusterReports env initIdx rnd reports k =
      Except.error "Failed to cluster reports" := by
  unfold clusterReports clusterReportsInner
  rw [if_pos h]

/-- Witness for C2: one report, two requested clusters. -/
theorem clusterReports_insufficient_witness :
    clusterReports cenv0 [0] rnd0 [rptC1] 2 =
      Except.error "Failed to cluster reports" :=
  clusterReports_insufficient cenv0 [0] rnd0 [rptC1] 2 (by decide)

/-- Counterexample for C2 as stated: on the empty batch with `k = 5` the
`try` body does throw the insufficient-data message, but the error that
`clusterReports` raises is the generic one, which differs from the
insufficient-data message — the InsufficientData classification is not
observable at the `clusterReports` boundary. -/
theorem clusterReports_insufficient_counterexample :
    clusterReportsInner cenv0 [] rnd0 [] 5 =
      Except.error (insufficientDataMessage 5) ∧
    clusterReports cenv0 [] rnd0 [] 5 =
      Except.error "Failed to cluster reports" ∧
    "Failed to cluster reports" ≠ insufficientDataMessage 5 :=
  ⟨rfl, rfl, by decide⟩

/-- Claim C4 (code bug): the centroid-update step never returns the
per-cluster means.  The source pushes each cluster's mean (or replacement
random vector) inside an unawaited `booleanMaskAsync` promise callback,
which JavaScript runs only after `updateCentroids` has returned, so
`tf.stack` executes on the still-empty array and throws; hence every call
of `updateCentroids` fails (first conjunct), and `kMeans` fails on any
batch whose first computed assignment differs from the initial all-zero
assignment vector — concretely on the two-point data set `[[0], [1]]` with
`k = 2` and initial centroid indices `[0, 1]` (third conjunct).  The values
the claim describes are exactly the ones the orphaned callbacks would have
pushed: per-cluster means, or a fresh random vector for an empty cluster
(second and fourth conjuncts, the latter evaluated on the failing input). -/
theorem updateCentroids_race :
    (∀ (data : List (List ℚ)) (assignments : List ℕ) (k numFeatures : ℕ)
        (rnd : ℕ → List ℚ),
      updateCentroids data assignments k numFeatures rnd =
        Except.error "Pass at least one tensor to tf.stack") ∧
    (∀ (data : List (List ℚ)) (assignments : List ℕ) (k : ℕ)
        (rnd : ℕ → List ℚ),
      updateCentroidsDeferred data assignments k rnd =
        (List.range k).map (fun i =>
          let clusterPoints :=
            ((data.zip assignments).filter (fun p => decide (p.2 = i))).map
              (fun p => p.1)
          if 0 < clusterPoints.length then meanVec clusterPoints else rnd i)) ∧
    kMeans [[0], [1]] 2 [0, 1] rnd0 100 =
      Except.error "Pass at least one tensor to tf.stack" ∧
    updateCentroidsDeferred [[0], [1]] [0, 1] 2 (rnd0 99) =
      [meanVec [[0]], meanVec [[1]]] := by
  refine ⟨fun _ _ _ _ _ => rfl, fun _ _ _ _ => rfl, ?_, ?_⟩
  · show kMeansLoop [[0], [1]] 2 1 rnd0 100 [[0], [1]] [0, 0] =
      Except.error "Pass at least one tensor to tf.stack"
    rw [kMeansLoop]
    have hne : assignToCentroids [[0], [1]] [[0], [1]] = [0, 1] := by
      unfold assignToCentroids argMinIdx argMinAux sqDist
      norm_num
      exact ⟨rfl, rfl⟩
    rw [hne]
    rfl
  · rfl

theorem ite_some_none_eq {α : Type} (p : Prop) [Decidable p] (x y : α) :
    ((if p then some x else none) = some y) ↔ p ∧ y = x := by
  split_ifs with h
  · simp [h, eq_comm]
  · simp [h]

theorem detectAmountAnomalies_eq (env : DetectEnv) (reports : List Report) :
    detectAmountAnomalies env reports =
      if (reports.filter hasPositiveAmount).length < 3 then []
      else
        (reports.filter hasPositiveAmount).filterMap (fun r =>
          if 4 < zScoreSq reports r then some (amountAnomalyFor env reports r)
          else none) := rfl

/-- Claim C6 (amended): the amount detector flags nothing when fewer than 3
reports have a positive amount; otherwise it flags exactly the
positive-amount reports whose z-score exceeds 2 (rendered by the exact
squared test `zScoreSq > 4`), with severity high above 3, medium above 2.5,
else low (squared thresholds 9 and 6.25), and score `min(100, zScore*20)`;
a zero standard deviation flags nothing and produces no NaN.  The claim's
example batch with amounts 100, 105, 98, 102, 100000 however flags NO
report — the outlier dominates the population standard deviation, the
maximal attainable |z| for five values being 4/√5 < 2 — see the
counterexample. -/
theorem detectAmountAnomalies_spec :
    (∀ (env : DetectEnv) (reports : List Report),
      (reports.filter hasPositiveAmount).length < 3 →
        detectAmountAnomalies env reports = []) ∧
    (∀ (env : DetectEnv) (reports : List Report) (a : Anomaly),
      3 ≤ (reports.filter hasPositiveAmount).length →
        (a ∈ detectAmountAnomalies env reports ↔
          ∃ r ∈ reports.filter hasPositiveAmount,
            4 < zScoreSq reports r ∧ a = amountAnomalyFor env reports r)) ∧
    (∀ (env : DetectEnv) (reports : List Report) (r : Report),
      (amountAnomalyFor env reports r).severity =
        (if 9 < zScoreSq reports r then Severity.high
          else if 25/4 < zScoreSq reports r then Severity.medium
          else Severity.low) ∧
      (amountAnomalyFor env reports r).score =
        min 100 (20 * env.sqrtQ (zScoreSq reports r))) ∧
    (∀ (env : DetectEnv) (reports : List Report),
      amountVariance reports = 0 → detectAmountAnomalies env reports = []) := by
  refine ⟨?_, ?_, fun env reports r => ⟨rfl, rfl⟩, ?_⟩
  · intro env reports h
    rw [detectAmountAnomalies_eq, if_pos h]
  · intro env reports a h
    rw [detectAmountAnomalies_eq, if_neg (not_lt.mpr h), List.mem_filterMap]
    constructor
    · rintro ⟨r, hr, hf⟩
      rw [ite_some_none_eq] at hf
      exact ⟨r, hr, hf.1, hf.2⟩
    · rintro ⟨r, hr, hz, ha⟩
      refine ⟨r, hr, ?_⟩
      rw [ite_some_none_eq]
      exact ⟨hz, ha⟩
  · intro env reports hv
    rw [detectAmountAnomalies_eq]
    split_ifs with h
    · rfl
    · apply List.filterMap_eq_nil_iff.mpr
      intro r hr
      have hz : ¬ (4 < zScoreSq reports r) := by
        simp only [zScoreSq, hv, div_zero]
        norm_num
      rw [if_neg hz]

theorem batchC6w_filter : batchC6w.filter hasPositiveAmount = batchC6w := by
  have h : ∀ (n : String) (q : ℚ), 0 < q →
      hasPositiveAmount (sampleReport n "Nairobi" Agency.police
        (some q) 0 0) = true := by
    intro n q hq
    simp only [hasPositiveAmount, sampleReport]
    exact decide_eq_true hq
  simp only [batchC6w, rptC6w, List.filter]
  rw [h "w1" 1 (by norm_num), h "w2" 1 (by norm_num), h "w3" 1 (by norm_num),
    h "w4" 1 (by norm_num), h "w5" 1 (by norm_num), h "w6" 100 (by norm_num)]

/-- Witness for C6: on the six-amount batch 1, 1, 1, 1, 1, 100 the
detector applies (six positive amounts) and flags the 100 report, whose
squared z-score is exactly 5 > 4; and a batch with no amounts at all is
left alone by the under-3 guard. -/
theorem detectAmountAnomalies_spec_witness :
    3 ≤ (batchC6w.filter hasPositiveAmount).length ∧
    amountAnomalyFor envC6 batchC6w rptC6w ∈
      detectAmountAnomalies envC6 batchC6w ∧
    detectAmountAnomalies envC6 [] = [] := by
  have h3 : 3 ≤ (batchC6w.filter hasPositiveAmount).length := by
    rw [batchC6w_filter]
    simp [batchC6w]
  have hmean : amountMean batchC6w = 35/2 := by
    simp only [amountMean, amountsOf, batchC6w_filter]
    simp only [batchC6w, rptC6w, sampleReport, amountOf, List.map, Option.getD]
    norm_num
  have hvar : amountVariance batchC6w = 5445/4 := by
    simp only [amountVariance, amountsOf, batchC6w_filter, hmean]
    simp only [batchC6w, rptC6w, sampleReport, amountOf, List.map, Option.getD]
    norm_num
  have hz : 4 < zScoreSq batchC6w rptC6w := by
    simp only [zScoreSq, hmean, hvar, rptC6w, sampleReport, amountOf,
      Option.getD]
    norm_num
  refine ⟨h3, ?_, detectAmountAnomalies_spec.1 envC6 [] (by simp)⟩
  refine (detectAmountAnomalies_spec.2.1 envC6 batchC6w _ h3).mpr ?_
  refine ⟨rptC6w, ?_, hz, rfl⟩
  rw [batchC6w_filter]
  simp [batchC6w]

/-- Counterexample for C6 as stated: on the claim's example batch (amounts
100, 105, 98, 102, 100000) the detector flags nothing at all — in
particular the 100000 report is not flagged with severity high.  The mean
is 20081 and the population variance 7983808228/5, so the squared z-score
of the 100000 report is 31935232805/7983808228 < 4, i.e. its |z| is just
below 2. -/
theorem detectAmountAnomalies_example_counterexample :
    detectAmountAnomalies envC6 batchC6 = [] := by
  have hfil : batchC6.filter hasPositiveAmount = batchC6 := by
    have h : ∀ (n : String) (q : ℚ), 0 < q →
        hasPositiveAmount (sampleReport n "Nairobi" Agency.police
          (some q) 0 0) = true := by
      intro n q hq
      simp only [hasPositiveAmount, sampleReport]
      exact decide_eq_true hq
    simp only [batchC6, List.filter]
    rw [h "r1" 100 (by norm_num), h "r2" 105 (by norm_num),
      h "r3" 98 (by norm_num), h "r4" 102 (by norm_num),
      h "r5" 100000 (by norm_num)]
  have hmean : amountMean batchC6 = 20081 := by
    simp only [amountMean, amountsOf, hfil]
    simp only [batchC6, sampleReport, amountOf, List.map, Option.getD]
    norm_num
  have hvar : amountVariance batchC6 = 7983808228/5 := by
    simp only [amountVariance, amountsOf, hfil, hmean]
    simp only [batchC6, sampleReport, amountOf, List.map, Option.getD]
    norm_num
  rw [detectAmountAnomalies_eq, hfil]
  rw [if_neg (by simp [batchC6])]
  apply List.filterMap_eq_nil_iff.mpr
  intro r hr
  have hz : ¬ (4 < zScoreSq batchC6 r) := by
    have hmem : r ∈ batchC6 := hr
    simp only [batchC6, List.mem_cons, List.mem_singleton] at hmem
    rcases hmem with rfl | rfl | rfl | rfl | rfl | hmem
    · simp only [zScoreSq, hmean, hvar, sampleReport, amountOf, Option.getD]
      norm_num
    · simp only [zScoreSq, hmean, hvar, sampleReport, amountOf, Option.getD]
      norm_num
    · simp only [zScoreSq, hmean, hvar, sampleReport, amountOf, Option.getD]
      norm_num
    · simp only [zScoreSq, hmean, hvar, sampleReport, amountOf, Option.getD]
      norm_num
    · simp only [zScoreSq, hmean, hvar, sampleReport, amountOf, Option.getD]
      norm_num
    · exact absurd hmem (List.not_mem_nil r)
  rw [if_neg hz]

/-- Claim C7 (amended): the timing detector flags (a) every report whose
local submission hour lies in [02:00, 05:00), with score 30 and severity
low, and (b) every report whose incident date precedes the detector's
two-years-ago mark, which is computed from the wall clock at analysis time
— not from the report's submission date, see the counterexample — with
`yearsOverdue = (now - incidentDate) / 365 days`, score
`min(70, yearsOverdue * 15)`, and severity medium above 5 years, else low. -/
theorem detectTimingAnomalies_spec :
    (∀ (env : DetectEnv) (reports : List Report) (a : Anomaly),
      a ∈ detectTimingAnomalies env reports ↔
        ((∃ r ∈ reports,
            (2 ≤ env.hourOf r.submittedAt ∧ env.hourOf r.submittedAt < 5) ∧
              a = hourAnomaly r) ∨
          (∃ r ∈ reports,
            r.incidentDate < env.twoYearsAgo ∧
              a = oldIncidentAnomaly env r))) ∧
    (∀ r : Report,
      (hourAnomaly r).score = 30 ∧ (hourAnomaly r).severity = Severity.low) ∧
    (∀ (env : DetectEnv) (r : Report),
      (oldIncidentAnomaly env r).score =
        min 70 (((env.now - r.incidentDate) / yearMs) * 15) ∧
      (oldIncidentAnomaly env r).severity =
        (if 5 < (env.now - r.incidentDate) / yearMs then Severity.medium
          else Severity.low)) := by
  refine ⟨?_, fun r => ⟨rfl, rfl⟩, fun env r => ⟨rfl, rfl⟩⟩
  intro env reports a
  unfold detectTimingAnomalies
  rw [List.mem_append, List.mem_filterMap, List.mem_filterMap]
  constructor
  · rintro (⟨r, hr, hf⟩ | ⟨r, hr, hf⟩)
    · rw [ite_some_none_eq] at hf
      exact Or.inl ⟨r, hr, hf.1, hf.2⟩
    · rw [ite_some_none_eq] at hf
      exact Or.inr ⟨r, hr, hf.1, hf.2⟩
  · rintro (⟨r, hr, hc, ha⟩ | ⟨r, hr, hc, ha⟩)
    · refine Or.inl ⟨r, hr, ?_⟩
      rw [ite_some_none_eq]
      exact ⟨hc, ha⟩
    · refine Or.inr ⟨r, hr, ?_⟩
      rw [ite_some_none_eq]
      exact ⟨hc, ha⟩

/-- Witness for C7: a report submitted at 03:30 UTC is flagged by the
unusual-hour pass with score 30. -/
theorem detectTimingAnomalies_spec_witness :
    hourAnomaly rptNight ∈ detectTimingAnomalies envNight [rptNight] ∧
    (hourAnomaly rptNight).score = 30 := by
  have hh : envNight.hourOf rptNight.submittedAt = 3 := by
    simp only [envNight, rptNight, sampleReport, hourOfUtc]
    norm_num
  refine ⟨?_, (detectTimingAnomalies_spec.2.1 rptNight).1⟩
  refine (detectTimingAnomalies_spec.1 envNight [rptNight]
    (hourAnomaly rptNight)).mpr ?_
  refine Or.inl ⟨rptNight, List.mem_singleton_self _, ?_, rfl⟩
  rw [hh]
  norm_num

/-- Counterexample for C7 as stated: `rptC7` has its incident more than 2
years before its submission (800 days apart), so the claim predicts a
flag with score `min(70, ((submittedAt - incidentDate)/365d) * 15)
= 2400/73 ≈ 32.9`; the detector does flag it, but with score 45, because
it measures the overdue time from the analysis clock (3 years), not from
the submission date. -/
theorem detectTimingAnomalies_submission_counterexample :
    2 * yearMs < rptC7.submittedAt - rptC7.incidentDate ∧
    detectTimingAnomalies envC7 [rptC7] = [oldIncidentAnomaly envC7 rptC7] ∧
    (oldIncidentAnomaly envC7 rptC7).score = 45 ∧
    min 70 (((rptC7.submittedAt - rptC7.incidentDate) / yearMs) * 15) =
      2400/73 ∧
    (45 : ℚ) ≠ 2400/73 := by
  have hh : envC7.hourOf rptC7.submittedAt = 0 := by
    simp only [envC7, rptC7, sampleReport, hourOfUtc, dayMs]
    norm_num
  refine ⟨?_, ?_, ?_, ?_, by norm_num⟩
  · simp only [rptC7, sampleReport, yearMs, dayMs]
    norm_num
  · unfold detectTimingAnomalies
    rw [List.filterMap_cons, List.filterMap_cons]
    rw [if_neg (by rw [hh]; norm_num)]
    rw [if_pos (by simp only [envC7, rptC7, sampleReport, dayMs]; norm_num)]
    rfl
  · show min 70 (((envC7.now - rptC7.incidentDate) / yearMs) * 15) = 45
    simp only [envC7, rptC7, sampleReport, yearMs, dayMs]
    norm_num [min_def]
  · simp only [rptC7, sampleReport, yearMs, dayMs]
    norm_num [min_def]

/-! Lemmas about the reportId-keyed map of `deduplicateAnomalies`. -/

theorem upsertAnomaly_lookup_self (a : Anomaly) (m : List (String × Anomaly)) :
    ∃ v, lookupA (upsertAnomaly a m) a.reportId = some v ∧ a.score ≤ v.score := by
  induction m with
  | nil => exact ⟨a, by simp [upsertAnomaly, lookupA], le_refl _⟩
  | cons kv rest ih =>
    obtain ⟨k, v⟩ := kv
    by_cases hk : k = a.reportId
    · by_cases hs : v.score < a.score
      · exact ⟨a, by simp [upsertAnomaly, hk, hs, lookupA], le_refl _⟩
      · exact ⟨v, by simp [upsertAnomaly, hk, hs, lookupA], le_of_not_lt hs⟩
    · obtain ⟨w, hw, hsw⟩ := ih
      exact ⟨w, by simp [upsertAnomaly, hk, lookupA, hw], hsw⟩

theorem upsertAnomaly_lookup_mono (a : Anomaly) (m : List (String × Anomaly))
    (key : String) (v : Anomaly) (hv : lookupA m key = some v) :
    ∃ w, lookupA (upsertAnomaly a m) key = some w ∧ v.score ≤ w.score := by
  induction m with
  | nil => simp [lookupA] at hv
  | cons kv rest ih =>
    obtain ⟨k, u⟩ := kv
    by_cases hkk : k = key
    · subst hkk
      have hv2 : u = v := by simpa [lookupA] using hv
      subst hv2
      by_cases h1 : k = a.reportId
      · by_cases hs : u.score < a.score
        · refine ⟨a, ?_, le_of_lt hs⟩
          simp only [upsertAnomaly]
          rw [if_pos h1, if_pos hs]
          simp [lookupA]
        · refine ⟨u, ?_, le_refl _⟩
          simp only [upsertAnomaly]
          rw [if_pos h1, if_neg hs]
          simp [lookupA]
      · refine ⟨u, ?_, le_refl _⟩
        simp only [upsertAnomaly]
        rw [if_neg h1]
        simp [lookupA]
    · have hv2 : lookupA rest key = some v := by simpa [lookupA, hkk] using hv
      by_cases h1 : k = a.reportId
      · by_cases hs : u.score < a.score
        · refine ⟨v, ?_, le_refl _⟩
          simp only [upsertAnomaly]
          rw [if_pos h1, if_pos hs]
          simp [lookupA, hkk, hv2]
        · refine ⟨v, ?_, le_refl _⟩
          simp only [upsertAnomaly]
          rw [if_pos h1, if_neg hs]
          simp [lookupA, hkk, hv2]
      · obtain ⟨w, hw, hsw⟩ := ih hv2
        refine ⟨w, ?_, hsw⟩
        simp only [upsertAnomaly]
        rw [if_neg h1]
        simp [lookupA, hkk, hw]

theorem lookupA_mem (m : List (String × Anomaly)) (key : String) (v : Anomaly)
    (h : lookupA m key = some v) : (key, v) ∈ m := by
  induction m with
  | nil => simp [lookupA] at h
  | cons kv rest ih =>
    obtain ⟨k, u⟩ := kv
    by_cases hk : k = key
    · have : u = v := by simpa [lookupA, hk] using h
      subst this
      subst hk
      exact List.mem_cons_self _ _
    · have h2 : lookupA rest key = some v := by simpa [lookupA, hk] using h
      exact List.mem_cons_of_mem _ (ih h2)

theorem upsertAnomaly_mem_orig (a : Anomaly) (m : List (String × Anomaly))
    (k : String) (v : Anomaly) (h : (k, v) ∈ upsertAnomaly a m) :
    v = a ∨ (k, v) ∈ m := by
  induction m with
  | nil =>
    simp [upsertAnomaly] at h
    exact Or.inl h.2
  | cons kv rest ih =>
    obtain ⟨k1, u⟩ := kv
    by_cases h1 : k1 = a.reportId
    · by_cases hs : u.score < a.score
      · simp only [upsertAnomaly, if_pos h1, if_pos hs, List.mem_cons] at h
        rcases h with h | h
        · exact Or.inl (congrArg Prod.snd h)
        · exact Or.inr (List.mem_cons_of_mem _ h)
      · simp only [upsertAnomaly, if_pos h1, if_neg hs] at h
        exact Or.inr h
    · simp only [upsertAnomaly, if_neg h1, List.mem_cons] at h
      rcases h with h | h
      · exact Or.inr (List.mem_cons.mpr (Or.inl h))
      · rcases ih h with h2 | h2
        · exact Or.inl h2
        · exact Or.inr (List.mem_cons_of_mem _ h2)

theorem upsertAnomaly_entry_id (a : Anomaly) (m : List (String × Anomaly))
    (hm : ∀ e ∈ m, Prod.fst e = (Prod.snd e).reportId) :
    ∀ e ∈ upsertAnomaly a m, Prod.fst e = (Prod.snd e).reportId := by
  induction m with
  | nil =>
    intro e he
    simp [upsertAnomaly] at he
    subst he
    rfl
  | cons kv rest ih =>
    obtain ⟨k1, u⟩ := kv
    intro e he
    by_cases h1 : k1 = a.reportId
    · by_cases hs : u.score < a.score
      · simp only [upsertAnomaly, if_pos h1, if_pos hs,
          List.mem_cons] at he
        rcases he with rfl | he
        · exact h1
        · exact hm e (List.mem_cons_of_mem _ he)
      · simp only [upsertAnomaly, if_pos h1, if_neg hs] at he
        exact hm e he
    · simp only [upsertAnomaly, if_neg h1, List.mem_cons] at he
      rcases he with rfl | he
      · exact hm _ (List.mem_cons_self _ _)
      · exact ih (fun e2 he2 => hm e2 (List.mem_cons_of_mem _ he2)) e he

theorem upsertAnomaly_keys_sub (a : Anomaly) (m : List (String × Anomaly)) :
    ∀ x ∈ (upsertAnomaly a m).map Prod.fst,
      x ∈ m.map Prod.fst ∨ x = a.reportId := by
  induction m with
  | nil =>
    intro x hx
    simp [upsertAnomaly] at hx
    exact Or.inr hx
  | cons kv rest ih =>
    obtain ⟨k1, u⟩ := kv
    intro x hx
    by_cases h1 : k1 = a.reportId
    · by_cases hs : u.score < a.score
      · simp only [upsertAnomaly, if_pos h1, if_pos hs, List.map_cons,
          List.mem_cons] at hx
        rcases hx with rfl | hx
        · exact Or.inl (by simp)
        · exact Or.inl (by simp [hx])
      · simp only [upsertAnomaly, if_pos h1, if_neg hs] at hx
        exact Or.inl hx
    · simp only [upsertAnomaly, if_neg h1, List.map_cons, List.mem_cons] at hx
      rcases hx with rfl | hx
      · exact Or.inl (by simp)
      · rcases ih x hx with h2 | h2
        · exact Or.inl (by simp [h2])
        · exact Or.inr h2

theorem upsertAnomaly_keys_nodup (a : Anomaly) (m : List (String × Anomaly))
    (h : (m.map Prod.fst).Nodup) : ((upsertAnomaly a m).map Prod.fst).Nodup := by
  induction m with
  | nil => simp [upsertAnomaly]
  | cons kv rest ih =>
    obtain ⟨k1, u⟩ := kv
    simp only [List.map_cons, List.nodup_cons] at h
    by_cases h1 : k1 = a.reportId
    · by_cases hs : u.score < a.score
      · simp only [upsertAnomaly, if_pos h1, if_pos hs, List.map_cons,
          List.nodup_cons]
        exact ⟨h.1, h.2⟩
      · simp only [upsertAnomaly, if_pos h1, if_neg hs, List.map_cons,
          List.nodup_cons]
        exact ⟨h.1, h.2⟩
    · simp only [upsertAnomaly, if_neg h1, List.map_cons, List.nodup_cons]
      refine ⟨?_, ih h.2⟩
      intro hmem
      rcases upsertAnomaly_keys_sub a rest k1 hmem with h2 | h2
      · exact h.1 h2
      · exact h1 h2

theorem dedup_foldl_lookup_mono (l : List Anomaly)
    (m : List (String × Anomaly)) (key : String) (v : Anomaly)
    (hv : lookupA m key = some v) :
    ∃ w, lookupA (l.foldl (fun acc a => upsertAnomaly a acc) m) key = some w ∧
      v.score ≤ w.score := by
  induction l generalizing m v with
  | nil => exact ⟨v, hv, le_refl _⟩
  | cons a l ih =>
    simp only [List.foldl_cons]
    obtain ⟨w, hw, hvw⟩ := upsertAnomaly_lookup_mono a m key v hv
    obtain ⟨w2, hw2, hww⟩ := ih (upsertAnomaly a m) w hw
    exact ⟨w2, hw2, le_trans hvw hww⟩

theorem dedup_foldl_dominates (l : List Anomaly)
    (m : List (String × Anomaly)) (b : Anomaly) (hb : b ∈ l) (v : Anomaly)
    (hv : lookupA (l.foldl (fun acc a => upsertAnomaly a acc) m) b.reportId =
      some v) :
    b.score ≤ v.score := by
  induction l generalizing m with
  | nil => simp at hb
  | cons a l ih =>
    simp only [List.foldl_cons] at hv
    rcases List.mem_cons.mp hb with rfl | hbl
    · obtain ⟨w, hw, hsw⟩ := upsertAnomaly_lookup_self b m
      obtain ⟨w2, hw2, hww⟩ :=
        dedup_foldl_lookup_mono l (upsertAnomaly b m) b.reportId w hw
      rw [hv] at hw2
      obtain rfl : w2 = v := (Option.some.inj hw2).symm
      exact le_trans hsw hww
    · exact ih (upsertAnomaly a m) hbl hv

theorem dedup_foldl_complete (l : List Anomaly)
    (m : List (String × Anomaly)) (b : Anomaly) (hb : b ∈ l) :
    ∃ v, lookupA (l.foldl (fun acc a => upsertAnomaly a acc) m) b.reportId =
      some v := by
  induction l generalizing m with
  | nil => simp at hb
  | cons a l ih =>
    simp only [List.foldl_cons]
    rcases List.mem_cons.mp hb with rfl | hbl
    · obtain ⟨w, hw, _⟩ := upsertAnomaly_lookup_self b m
      obtain ⟨w2, hw2, _⟩ :=
        dedup_foldl_lookup_mono l (upsertAnomaly b m) b.reportId w hw
      exact ⟨w2, hw2⟩
    · exact ih (upsertAnomaly a m) hbl

theorem dedup_foldl_mem_orig (l : List Anomaly)
    (m : List (String × Anomaly)) (k : String) (v : Anomaly)
    (h : (k, v) ∈ l.foldl (fun acc a => upsertAnomaly a acc) m) :
    (k, v) ∈ m ∨ v ∈ l := by
  induction l generalizing m with
  | nil => exact Or.inl h
  | cons a l ih =>
    simp only [List.foldl_cons] at h
    rcases ih (upsertAnomaly a m) h with hm | hl
    · rcases upsertAnomaly_mem_orig a m k v hm with rfl | hm2
      · exact Or.inr (List.mem_cons_self _ _)
      · exact Or.inl hm2
    · exact Or.inr (List.mem_cons_of_mem _ hl)

theorem dedup_foldl_entry_id (l : List Anomaly)
    (m : List (String × Anomaly))
    (hm : ∀ e ∈ m, Prod.fst e = (Prod.snd e).reportId) :
    ∀ e ∈ l.foldl (fun acc a => upsertAnomaly a acc) m,
      Prod.fst e = (Prod.snd e).reportId := by
  induction l generalizing m with
  | nil => exact hm
  | cons a l ih =>
    simp only [List.foldl_cons]
    exact ih (upsertAnomaly a m) (upsertAnomaly_entry_id a m hm)

theorem dedup_foldl_keys_nodup (l : List Anomaly)
    (m : List (String × Anomaly)) (h : (m.map Prod.fst).Nodup) :
    ((l.foldl (fun acc a => upsertAnomaly a acc) m).map Prod.fst).Nodup := by
  induction l generalizing m with
  | nil => exact h
  | cons a l ih =>
    simp only [List.foldl_cons]
    exact ih (upsertAnomaly a m) (upsertAnomaly_keys_nodup a m h)

theorem lookupA_of_mem_nodup (m : List (String × Anomaly)) (k : String)
    (v : Anomaly) (h : (k, v) ∈ m) (hn : (m.map Prod.fst).Nodup) :
    lookupA m k = some v := by
  induction m with
  | nil => simp at h
  | cons kv rest ih =>
    obtain ⟨k1, u⟩ := kv
    simp only [List.map_cons, List.nodup_cons] at hn
    rcases List.mem_cons.mp h with h2 | h2
    · obtain ⟨rfl, rfl⟩ := Prod.mk.inj h2.symm
      simp [lookupA]
    · have hk : k1 ≠ k := by
        intro hkk
        subst hkk
        exact hn.1 (List.mem_map.mpr ⟨(k1, v), h2, rfl⟩)
      simp only [lookupA, if_neg hk]
      exact ih h2 hn.2

theorem detectAnomalies_anomalies_eq (env : DetectEnv) (reports : List Report) :
    (detectAnomalies env reports).anomalies =
      deduplicateAnomalies (rawAnomalies env reports) := by
  unfold detectAnomalies
  split_ifs with h
  · obtain rfl := List.length_eq_zero.mp h
    rfl
  · rfl

theorem detectAnomalies_normal_eq (env : DetectEnv) (reports : List Report) :
    (detectAnomalies env reports).normalReports =
      reports.filter (fun r => decide (r.id ∉
        (deduplicateAnomalies (rawAnomalies env reports)).map
          (fun a => a.reportId))) := by
  unfold detectAnomalies
  split_ifs with h
  · obtain rfl := List.length_eq_zero.mp h
    rfl
  · rfl

/-- Claim C3: in the result of `detectAnomalies`, each reportId occurs in
at most one anomaly; every kept anomaly comes from a detector and carries
the maximal score among all detector findings for its reportId (so a
report flagged by two detectors keeps only the higher-scoring finding);
every flagged reportId survives deduplication; the list is sorted by
nonincreasing score; `normalReports` is exactly the complement;
and, in particular, merging an amount finding with score 40 and a timing
finding with score 70 for the same report keeps exactly the timing one. -/
theorem detectAnomalies_dedup_spec :
    (∀ (env : DetectEnv) (reports : List Report),
      ((detectAnomalies env reports).anomalies.map
        (fun a => a.reportId)).Nodup) ∧
    (∀ (env : DetectEnv) (reports : List Report) (a : Anomaly),
      a ∈ (detectAnomalies env reports).anomalies →
        a ∈ rawAnomalies env reports ∧
          ∀ b ∈ rawAnomalies env reports,
            b.reportId = a.reportId → b.score ≤ a.score) ∧
    (∀ (env : DetectEnv) (reports : List Report) (b : Anomaly),
      b ∈ rawAnomalies env reports →
        ∃ a ∈ (detectAnomalies env reports).anomalies,
          a.reportId = b.reportId) ∧
    (∀ (env : DetectEnv) (reports : List Report),
      List.Sorted (fun a b => b.score ≤ a.score)
        (detectAnomalies env reports).anomalies) ∧
    (∀ (env : DetectEnv) (reports : List Report) (r : Report),
      r ∈ (detectAnomalies env reports).normalReports ↔
        (r ∈ reports ∧
          ∀ a ∈ (detectAnomalies env reports).anomalies,
            a.reportId ≠ r.id)) ∧
    deduplicateAnomalies [anomalyAmount40, anomalyTiming70] =
      [anomalyTiming70] := by
  have hentry : ∀ (env : DetectEnv) (reports : List Report),
      ∀ e ∈ dedupMap (rawAnomalies env reports),
        Prod.fst e = (Prod.snd e).reportId := by
    intro env reports
    exact dedup_foldl_entry_id _ [] (by simp)
  have hkeys : ∀ (env : DetectEnv) (reports : List Report),
      ((dedupMap (rawAnomalies env reports)).map Prod.fst).Nodup := by
    intro env reports
    exact dedup_foldl_keys_nodup _ [] (by simp)
  have hidmap : ∀ (env : DetectEnv) (reports : List Report),
      ((dedupMap (rawAnomalies env reports)).map Prod.snd).map
          (fun a => a.reportId) =
        (dedupMap (rawAnomalies env reports)).map Prod.fst := by
    intro env reports
    rw [List.map_map]
    exact List.map_congr_left (fun e he => (hentry env reports e he).symm)
  refine ⟨?_, ?_, ?_, ?_, ?_, ?_⟩
  · intro env reports
    rw [detectAnomalies_anomalies_eq]
    unfold deduplicateAnomalies
    have hperm := (List.perm_insertionSort
      (fun a b : Anomaly => b.score ≤ a.score)
      ((dedupMap (rawAnomalies env reports)).map Prod.snd)).map
      (fun a => a.reportId)
    rw [hperm.nodup_iff, hidmap env reports]
    exact hkeys env reports
  · intro env reports a ha
    rw [detectAnomalies_anomalies_eq] at ha
    unfold deduplicateAnomalies at ha
    have hval : a ∈ (dedupMap (rawAnomalies env reports)).map Prod.snd :=
      (List.perm_insertionSort _ _).mem_iff.mp ha
    obtain ⟨e, he, hsnd⟩ := List.mem_map.mp hval
    obtain ⟨k, w⟩ := e
    have hwa : w = a := hsnd
    have hid : k = w.reportId := hentry env reports (k, w) he
    have hlk : lookupA (dedupMap (rawAnomalies env reports)) w.reportId =
        some w := by
      rw [← hid]
      exact lookupA_of_mem_nodup _ _ _ he (hkeys env reports)
    constructor
    · rw [← hwa]
      rcases dedup_foldl_mem_orig _ [] _ _ he with hm | hm
      · simp at hm
      · exact hm
    · intro b hb hbid
      rw [← hwa]
      refine dedup_foldl_dominates _ [] b hb w ?_
      rw [hbid, ← hwa]
      exact hlk
  · intro env reports b hb
    obtain ⟨v, hv⟩ := dedup_foldl_complete (rawAnomalies env reports) [] b hb
    have hmem := lookupA_mem _ _ _ hv
    have hidv : v.reportId = b.reportId :=
      (hentry env reports (b.reportId, v) hmem).symm
    refine ⟨v, ?_, hidv⟩
    rw [detectAnomalies_anomalies_eq]
    unfold deduplicateAnomalies
    exact (List.perm_insertionSort _ _).mem_iff.mpr
      (List.mem_map.mpr ⟨(b.reportId, v), hmem, rfl⟩)
  · intro env reports
    rw [detectAnomalies_anomalies_eq]
    unfold deduplicateAnomalies
    haveI : IsTotal Anomaly (fun a b => b.score ≤ a.score) :=
      ⟨fun a b => le_total b.score a.score⟩
    haveI : IsTrans Anomaly (fun a b => b.score ≤ a.score) :=
      ⟨fun _ _ _ hab hbc => le_trans hbc hab⟩
    exact List.sorted_insertionSort _ _
  · intro env reports r
    rw [detectAnomalies_normal_eq, List.mem_filter]
    rw [detectAnomalies_anomalies_eq]
    simp only [decide_eq_true_eq, List.mem_map, not_exists]
    constructor
    · rintro ⟨hr, hna⟩
      refine ⟨hr, fun a ha hcontra => ?_⟩
      exact hna a ⟨ha, hcontra⟩
    · rintro ⟨hr, hna⟩
      refine ⟨hr, fun a hcontra => ?_⟩
      exact hna a hcontra.1 hcontra.2
  · have h1 : upsertAnomaly anomalyAmount40 [] =
        [("x", anomalyAmount40)] := rfl
    have h2 : upsertAnomaly anomalyTiming70 [("x", anomalyAmount40)] =
        [("x", anomalyTiming70)] := by
      simp only [upsertAnomaly]
      rw [if_pos (show "x" = anomalyTiming70.reportId from rfl)]
      rw [if_pos (show anomalyAmount40.score < anomalyTiming70.score by
        show (40 : ℚ) < 70
        norm_num)]
    show List.insertionSort (fun a b => b.score ≤ a.score)
        ((dedupMap [anomalyAmount40, anomalyTiming70]).map Prod.snd) =
      [anomalyTiming70]
    unfold dedupMap
    rw [List.foldl_cons, List.foldl_cons, List.foldl_nil, h1, h2]
    rfl

/-- Witness for C3: on a one-report batch submitted at 03:30, the pipeline
produces exactly one anomaly (the timing one), and the complement
characterization applies to that report. -/
theorem detectAnomalies_dedup_spec_witness :
    hourAnomaly rptNight ∈ rawAnomalies envNight [rptNight] ∧
    (∃ a ∈ (detectAnomalies envNight [rptNight]).anomalies,
      a.reportId = (hourAnomaly rptNight).reportId) := by
  have hh : envNight.hourOf rptNight.submittedAt = 3 := by
    simp only [envNight, rptNight, sampleReport, hourOfUtc]
    norm_num
  have hmem : hourAnomaly rptNight ∈ rawAnomalies envNight [rptNight] := by
    unfold rawAnomalies
    rw [List.mem_append]
    refine Or.inr ?_
    unfold detectTimingAnomalies
    rw [List.mem_append, List.mem_filterMap]
    refine Or.inl ⟨rptNight, List.mem_singleton_self _, ?_⟩
    rw [ite_some_none_eq]
    refine ⟨?_, rfl⟩
    rw [hh]
    norm_num
  exact ⟨hmem,
    detectAnomalies_dedup_spec.2.2.1 envNight [rptNight]
      (hourAnomaly rptNight) hmem⟩

/-! Lemmas about the first-seen count maps (`bumpCount` / `countListOf`). -/

theorem bumpCount_lookup_self {κ : Type} [DecidableEq κ] (key : κ)
    (m : List (κ × ℕ)) :
    lookupC (bumpCount key m) key = some ((lookupC m key).getD 0 + 1) := by
  induction m with
  | nil => simp [bumpCount, lookupC]
  | cons kn rest ih =>
    obtain ⟨k, n⟩ := kn
    by_cases hk : k = key
    · subst hk
      simp [bumpCount, lookupC]
    · simp [bumpCount, lookupC, hk, ih]

theorem bumpCount_lookup_other {κ : Type} [DecidableEq κ] (key key' : κ)
    (m : List (κ × ℕ)) (hne : key' ≠ key) :
    lookupC (bumpCount key m) key' = lookupC m key' := by
  induction m with
  | nil => simp [bumpCount, lookupC, Ne.symm hne]
  | cons kn rest ih =>
    obtain ⟨k, n⟩ := kn
    by_cases hk : k = key
    · have hkk : k ≠ key' := by
        rw [hk]
        exact Ne.symm hne
      have hkey : key ≠ key' := hk ▸ hkk
      simp [bumpCount, lookupC, hk, hkk, hkey]
    · by_cases hkk : k = key'
      · simp [bumpCount, lookupC, hk, hkk, hne]
      · simp [bumpCount, lookupC, hk, hkk, ih]

theorem count_foldl_lookup_not_mem {κ : Type} [DecidableEq κ] (l : List κ)
    (m : List (κ × ℕ)) (k : κ) (hk : k ∉ l) :
    lookupC (l.foldl (fun acc x => bumpCount x acc) m) k = lookupC m k := by
  induction l generalizing m with
  | nil => rfl
  | cons x l ih =>
    simp only [List.foldl_cons]
    have hx : k ≠ x := fun hxk => hk (hxk ▸ List.mem_cons_self x l)
    rw [ih (bumpCount x m) (fun hmem => hk (List.mem_cons_of_mem _ hmem)),
      bumpCount_lookup_other x k m hx]

theorem count_foldl_lookup_mem {κ : Type} [DecidableEq κ] (l : List κ)
    (m : List (κ × ℕ)) (k : κ) (hk : k ∈ l) :
    lookupC (l.foldl (fun acc x => bumpCount x acc) m) k =
      some ((lookupC m k).getD 0 + l.count k) := by
  induction l generalizing m with
  | nil => simp at hk
  | cons x l ih =>
    simp only [List.foldl_cons]
    by_cases hx : x = k
    · subst hx
      by_cases hmem : x ∈ l
      · rw [ih (bumpCount x m) hmem, bumpCount_lookup_self]
        rw [List.count_cons_self]
        simp only [Option.getD_some]
        congr 1
        omega
      · rw [count_foldl_lookup_not_mem l (bumpCount x m) x hmem,
          bumpCount_lookup_self, List.count_cons_self,
          List.count_eq_zero_of_not_mem hmem]
    · have hkl : k ∈ l := by
        rcases List.mem_cons.mp hk with hkx | hkl
        · exact absurd hkx.symm hx
        · exact hkl
      rw [ih (bumpCount x m) hkl,
        bumpCount_lookup_other x k m (fun hkx => hx hkx.symm),
        List.count_cons_of_ne (fun hkx => hx hkx.symm)]

theorem bumpCount_keys_sub {κ : Type} [DecidableEq κ] (key : κ)
    (m : List (κ × ℕ)) :
    ∀ x ∈ (bumpCount key m).map Prod.fst, x ∈ m.map Prod.fst ∨ x = key := by
  induction m with
  | nil =>
    intro x hx
    simp [bumpCount] at hx
    exact Or.inr hx
  | cons kn rest ih =>
    obtain ⟨k, n⟩ := kn
    intro x hx
    by_cases hk : k = key
    · simp only [bumpCount, if_pos hk, List.map_cons, List.mem_cons] at hx
      rcases hx with rfl | hx
      · exact Or.inl (by simp)
      · exact Or.inl (by simp [hx])
    · simp only [bumpCount, if_neg hk, List.map_cons, List.mem_cons] at hx
      rcases hx with rfl | hx
      · exact Or.inl (by simp)
      · rcases ih x hx with h2 | h2
        · exact Or.inl (by simp [h2])
        · exact Or.inr h2

theorem bumpCount_keys_nodup {κ : Type} [DecidableEq κ] (key : κ)
    (m : List (κ × ℕ)) (h : (m.map Prod.fst).Nodup) :
    ((bumpCount key m).map Prod.fst).Nodup := by
  induction m with
  | nil => simp [bumpCount]
  | cons kn rest ih =>
    obtain ⟨k, n⟩ := kn
    simp only [List.map_cons, List.nodup_cons] at h
    by_cases hk : k = key
    · simp only [bumpCount, if_pos hk, List.map_cons, List.nodup_cons]
      exact ⟨h.1, h.2⟩
    · simp only [bumpCount, if_neg hk, List.map_cons, List.nodup_cons]
      refine ⟨?_, ih h.2⟩
      intro hmem
      rcases bumpCount_keys_sub key rest k hmem with h2 | h2
      · exact h.1 h2
      · exact hk h2

theorem count_foldl_keys_nodup {κ : Type} [DecidableEq κ] (l : List κ)
    (m : List (κ × ℕ)) (h : (m.map Prod.fst).Nodup) :
    ((l.foldl (fun acc x => bumpCount x acc) m).map Prod.fst).Nodup := by
  induction l generalizing m with
  | nil => exact h
  | cons x l ih =>
    simp only [List.foldl_cons]
    exact ih (bumpCount x m) (bumpCount_keys_nodup x m h)

theorem lookupC_mem {κ : Type} [DecidableEq κ] (m : List (κ × ℕ)) (key : κ)
    (n : ℕ) (h : lookupC m key = some n) : (key, n) ∈ m := by
  induction m with
  | nil => simp [lookupC] at h
  | cons kn rest ih =>
    obtain ⟨k, u⟩ := kn
    by_cases hk : k = key
    · have : u = n := by simpa [lookupC, hk] using h
      subst this
      subst hk
      exact List.mem_cons_self _ _
    · have h2 : lookupC rest key = some n := by simpa [lookupC, hk] using h
      exact List.mem_cons_of_mem _ (ih h2)

theorem lookupC_of_mem_nodup {κ : Type} [DecidableEq κ] (m : List (κ × ℕ))
    (k : κ) (n : ℕ) (h : (k, n) ∈ m) (hn : (m.map Prod.fst).Nodup) :
    lookupC m k = some n := by
  induction m with
  | nil => simp at h
  | cons kn rest ih =>
    obtain ⟨k1, u⟩ := kn
    simp only [List.map_cons, List.nodup_cons] at hn
    rcases List.mem_cons.mp h with h2 | h2
    · obtain ⟨rfl, rfl⟩ := Prod.mk.inj h2.symm
      simp [lookupC]
    · have hk : k1 ≠ k := by
        intro hkk
        subst hkk
        exact hn.1 (List.mem_map.mpr ⟨(k1, n), h2, rfl⟩)
      simp only [lookupC, if_neg hk]
      exact ih h2 hn.2

theorem countListOf_mem_spec {κ : Type} [DecidableEq κ] (keys : List κ)
    (k : κ) (n : ℕ) (h : (k, n) ∈ countListOf keys) :
    k ∈ keys ∧ n = keys.count k := by
  have hlk : lookupC (countListOf keys) k = some n :=
    lookupC_of_mem_nodup _ _ _ h (count_foldl_keys_nodup keys [] (by simp))
  by_cases hk : k ∈ keys
  · have hl : lookupC (countListOf keys) k =
        some ((lookupC ([] : List (κ × ℕ)) k).getD 0 + keys.count k) :=
      count_foldl_lookup_mem keys [] k hk
    rw [hlk] at hl
    have h2 : n = (lookupC ([] : List (κ × ℕ)) k).getD 0 + keys.count k :=
      Option.some.inj hl
    simp only [lookupC, Option.getD_none] at h2
    exact ⟨hk, by omega⟩
  · have hl : lookupC (countListOf keys) k = lookupC ([] : List (κ × ℕ)) k :=
      count_foldl_lookup_not_mem keys [] k hk
    rw [hlk] at hl
    simp [lookupC] at hl

theorem countListOf_exists {κ : Type} [DecidableEq κ] (keys : List κ) (k : κ)
    (hk : k ∈ keys) : (k, keys.count k) ∈ countListOf keys := by
  have hl := count_foldl_lookup_mem keys [] k hk
  have h2 : lookupC (countListOf keys) k = some (keys.count k) := by
    simpa [lookupC] using hl
  exact lookupC_mem _ _ _ h2

/-- Characterization of the JS reduce `(a, b) => a[1] > b[1] ? a : b`: the
result is an entry of the list attaining the maximal count, and every entry
strictly after it has a strictly smaller count (so on ties the last
maximal entry wins). -/
theorem reduceMaxPair_spec {α : Type} (e : α × ℕ) (rest : List (α × ℕ)) :
    ∃ p l₁ l₂, reduceMaxPair (e :: rest) = some p ∧
      e :: rest = l₁ ++ p :: l₂ ∧
      (∀ q ∈ e :: rest, q.2 ≤ p.2) ∧ (∀ q ∈ l₂, q.2 < p.2) := by
  induction rest generalizing e with
  | nil =>
    exact ⟨e, [], [], by simp [reduceMaxPair], by simp, by simp, by simp⟩
  | cons b t ih =>
    obtain ⟨p, l₁, l₂, hred, hsplit, hdom, hafter⟩ :=
      ih (if b.2 < e.2 then e else b)
    have hred2 : reduceMaxPair (e :: b :: t) = some p := by
      simp only [reduceMaxPair, List.foldl_cons] at hred ⊢
      exact hred
    by_cases he : b.2 < e.2
    · rw [if_pos he] at hsplit hdom
      cases l₁ with
      | nil =>
        rw [List.nil_append] at hsplit
        have h1 : e = p := (List.cons.injEq _ _ _ _ ▸ hsplit).1
        have h2 : t = l₂ := (List.cons.injEq _ _ _ _ ▸ hsplit).2
        refine ⟨p, [], b :: l₂, hred2, ?_, ?_, ?_⟩
        · rw [List.nil_append, ← h1, ← h2]
        · intro q hq
          rcases List.mem_cons.mp hq with rfl | hq2
          · exact h1 ▸ le_refl _
          · rcases List.mem_cons.mp hq2 with rfl | hq3
            · exact le_of_lt (h1 ▸ he)
            · exact hdom q (List.mem_cons_of_mem _ (h2 ▸ hq3))
        · intro q hq
          rcases List.mem_cons.mp hq with rfl | hq2
          · exact h1 ▸ he
          · exact hafter q hq2
      | cons a l₁T =>
        rw [List.cons_append] at hsplit
        have h1 : e = a := (List.cons.injEq _ _ _ _ ▸ hsplit).1
        have h2 : t = l₁T ++ p :: l₂ := (List.cons.injEq _ _ _ _ ▸ hsplit).2
        refine ⟨p, e :: b :: l₁T, l₂, hred2, ?_, ?_, hafter⟩
        · rw [List.cons_append, List.cons_append, h2]
        · intro q hq
          rcases List.mem_cons.mp hq with rfl | hq2
          · exact hdom q (List.mem_cons_self _ _)
          · rcases List.mem_cons.mp hq2 with rfl | hq3
            · exact le_trans (le_of_lt he) (hdom e (List.mem_cons_self _ _))
            · exact hdom q (List.mem_cons_of_mem _ hq3)
    · rw [if_neg he] at hsplit hdom
      have heb : e.2 ≤ b.2 := le_of_not_lt he
      cases l₁ with
      | nil =>
        rw [List.nil_append] at hsplit
        have h1 : b = p := (List.cons.injEq _ _ _ _ ▸ hsplit).1
        have h2 : t = l₂ := (List.cons.injEq _ _ _ _ ▸ hsplit).2
        refine ⟨p, [e], l₂, hred2, ?_, ?_, hafter⟩
        · rw [← h1, ← h2]
          rfl
        · intro q hq
          rcases List.mem_cons.mp hq with rfl | hq2
          · exact le_trans heb (h1 ▸ le_refl _)
          · rcases List.mem_cons.mp hq2 with rfl | hq3
            · exact h1 ▸ le_refl _
            · exact hdom q (List.mem_cons_of_mem _ (h2 ▸ hq3))
      | cons a l₁T =>
        rw [List.cons_append] at hsplit
        have h1 : b = a := (List.cons.injEq _ _ _ _ ▸ hsplit).1
        have h2 : t = l₁T ++ p :: l₂ := (List.cons.injEq _ _ _ _ ▸ hsplit).2
        refine ⟨p, e :: b :: l₁T, l₂, hred2, ?_, ?_, hafter⟩
        · rw [List.cons_append, List.cons_append, h2]
        · intro q hq
          rcases List.mem_cons.mp hq with rfl | hq2
          · exact le_trans heb (hdom b (List.mem_cons_self _ _))
          · rcases List.mem_cons.mp hq2 with rfl | hq3
            · exact hdom q (List.mem_cons_self _ _)
            · exact hdom q (List.mem_cons_of_mem _ hq3)

theorem timePatternOf_spec (p : ℚ) :
    (timePatternOf p = TimePattern.recent ↔ 70 < p) ∧
    (timePatternOf p = TimePattern.historical ↔ p < 30) ∧
    (timePatternOf p = TimePattern.mixed ↔ (30 ≤ p ∧ p ≤ 70)) := by
  unfold timePatternOf
  by_cases h1 : 70 < p
  · rw [if_pos h1]
    exact ⟨⟨fun _ => h1, fun _ => rfl⟩,
      ⟨fun h => TimePattern.noConfusion h,
        fun h => absurd h1 (not_lt.mpr (le_of_lt (lt_trans h (by norm_num))))⟩,
      ⟨fun h => TimePattern.noConfusion h,
        fun h => absurd h1 (not_lt.mpr h.2)⟩⟩
  · by_cases h2 : p < 30
    · rw [if_neg h1, if_pos h2]
      exact ⟨⟨fun h => TimePattern.noConfusion h, fun h => absurd h h1⟩,
        ⟨fun _ => h2, fun _ => rfl⟩,
        ⟨fun h => TimePattern.noConfusion h,
          fun h => absurd h2 (not_lt.mpr h.1)⟩⟩
    · rw [if_neg h1, if_neg h2]
      exact ⟨⟨fun h => TimePattern.noConfusion h, fun h => absurd h h1⟩,
        ⟨fun h => TimePattern.noConfusion h, fun h => absurd h h2⟩,
        ⟨fun _ => ⟨not_lt.mp h2, not_lt.mp h1⟩, fun _ => rfl⟩⟩

set_option maxHeartbeats 1600000 in
/-- Claim C8 (amended): on a non-empty cluster, the dominant agency attains
the maximal member count, and on ties the agency whose first occurrence is
LATEST (not earliest) in aggregation order wins — formalized: the
first-seen-ordered count list splits as `l₁ ++ (dominant, cnt) :: l₂` with
every entry of `l₂` strictly below `cnt` (see the counterexample for the
tie direction); the average amount is the mean over members with positive
amount and `0` when there are none; `commonCounties` are up to 3 counties,
pairwise distinct, each a member county, and every member county left out
occurs at most as often as any listed one; the time pattern is `recent`
above 70 percent recent members (incident within the 180-day window),
`historical` below 30, else `mixed`. -/
theorem analyzeCluster_spec (now : ℚ) (reports : List Report)
    (h : reports ≠ []) :
    (∃ cnt l₁ l₂,
      agencyCountList reports =
        l₁ ++ ((analyzeCluster now reports).dominantAgency, cnt) :: l₂ ∧
      cnt = (reports.map (fun r => r.agency)).count
          (analyzeCluster now reports).dominantAgency ∧
      (∀ ag ∈ reports.map (fun r => r.agency),
        (reports.map (fun r => r.agency)).count ag ≤ cnt) ∧
      (∀ q ∈ l₂, q.2 < cnt)) ∧
    (((reports.map amountOf).filter (fun a => decide (0 < a)) ≠ [] →
        (analyzeCluster now reports).averageAmount =
          ((reports.map amountOf).filter (fun a => decide (0 < a))).sum /
            (((reports.map amountOf).filter
              (fun a => decide (0 < a))).length : ℚ)) ∧
      ((reports.map amountOf).filter (fun a => decide (0 < a)) = [] →
        (analyzeCluster now reports).averageAmount = 0)) ∧
    (analyzeCluster now reports).reportCount = reports.length ∧
    ((analyzeCluster now reports).commonCounties.length =
        min 3 (countyCountList reports).length ∧
      (analyzeCluster now reports).commonCounties.Nodup ∧
      (∀ c ∈ (analyzeCluster now reports).commonCounties,
        c ∈ reports.map (fun r => r.county)) ∧
      (∀ c ∈ (analyzeCluster now reports).commonCounties,
        ∀ c2 ∈ reports.map (fun r => r.county),
          c2 ∉ (analyzeCluster now reports).commonCounties →
            (reports.map (fun r => r.county)).count c2 ≤
              (reports.map (fun r => r.county)).count c)) ∧
    (((analyzeCluster now reports).timePattern = TimePattern.recent ↔
        70 < ((reports.filter
            (fun r => decide (now - sixMonthsMs < r.incidentDate))).length : ℚ) /
          (reports.length : ℚ) * 100) ∧
      ((analyzeCluster now reports).timePattern = TimePattern.historical ↔
        ((reports.filter
            (fun r => decide (now - sixMonthsMs < r.incidentDate))).length : ℚ) /
          (reports.length : ℚ) * 100 < 30)) := by
  have hccEq : (analyzeCluster now reports).commonCounties =
      ((List.insertionSort (fun a b => b.2 ≤ a.2)
        (countyCountList reports)).take 3).map (fun q => q.1) := rfl
  have htpEq : (analyzeCluster now reports).timePattern =
      timePatternOf (((reports.filter
          (fun r => decide (now - sixMonthsMs < r.incidentDate))).length : ℚ) /
        (reports.length : ℚ) * 100) := rfl
  refine ⟨?_, ⟨?_, ?_⟩, rfl, ⟨?_, ?_, ?_, ?_⟩, ?_, ?_⟩
  · -- dominant agency
    have hke : reports.map (fun r => r.agency) ≠ [] := by
      intro hnil
      exact h (List.map_eq_nil_iff.mp hnil)
    obtain ⟨ag0, hag0⟩ := List.exists_mem_of_ne_nil _ hke
    have hmem0 : (ag0, (reports.map (fun r => r.agency)).count ag0) ∈
        agencyCountList reports := countListOf_exists _ ag0 hag0
    cases hacl : agencyCountList reports with
    | nil =>
      rw [hacl] at hmem0
      simp at hmem0
    | cons e restL =>
      obtain ⟨p, l₁, l₂, hred, hsplit, hdom, hafter⟩ := reduceMaxPair_spec e restL
      have hdom2 : (analyzeCluster now reports).dominantAgency = p.1 := by
        have hdomEq : (analyzeCluster now reports).dominantAgency =
            ((reduceMaxPair (agencyCountList reports)).map
              (fun q => q.1)).getD Agency.other := rfl
        rw [hdomEq, hacl, hred]
        rfl
      have hpmem : p ∈ agencyCountList reports := by
        rw [hacl, hsplit]
        exact List.mem_append_right _ (List.mem_cons_self _ _)
      have hpmem2 : (p.1, p.2) ∈ countListOf (reports.map (fun r => r.agency)) :=
        hpmem
      have hpspec := countListOf_mem_spec (reports.map (fun r => r.agency))
        p.1 p.2 hpmem2
      refine ⟨p.2, l₁, l₂, ?_, ?_, ?_, hafter⟩
      · rw [hdom2]
        exact hsplit
      · rw [hdom2]
        exact hpspec.2
      · intro ag hag
        have hmem : (ag, (reports.map (fun r => r.agency)).count ag) ∈
            agencyCountList reports := countListOf_exists _ ag hag
        rw [hacl] at hmem
        exact hdom _ hmem
  · -- average amount, some positive
    intro hp
    show (if 0 < ((reports.map amountOf).filter
          (fun a => decide (0 < a))).length then
        ((reports.map amountOf).filter (fun a => decide (0 < a))).sum /
          (((reports.map amountOf).filter
            (fun a => decide (0 < a))).length : ℚ)
      else 0) = _
    rw [if_pos (List.length_pos.mpr hp)]
  · -- average amount, none positive
    intro hp
    show (if 0 < ((reports.map amountOf).filter
          (fun a => decide (0 < a))).length then
        ((reports.map amountOf).filter (fun a => decide (0 < a))).sum /
          (((reports.map amountOf).filter
            (fun a => decide (0 < a))).length : ℚ)
      else 0) = 0
    rw [hp]
    simp
  · -- commonCounties length
    have hperm := List.perm_insertionSort
      (fun (a b : String × ℕ) => b.2 ≤ a.2) (countyCountList reports)
    rw [hccEq, List.length_map, List.length_take, hperm.length_eq]
  · -- commonCounties nodup
    have hperm := List.perm_insertionSort
      (fun (a b : String × ℕ) => b.2 ≤ a.2) (countyCountList reports)
    have hkeysnodup : ((countyCountList reports).map Prod.fst).Nodup :=
      count_foldl_keys_nodup _ [] (by simp)
    have hSkeys : ((List.insertionSort (fun a b => b.2 ≤ a.2)
        (countyCountList reports)).map Prod.fst).Nodup :=
      ((hperm.map Prod.fst).nodup_iff).mpr hkeysnodup
    rw [hccEq, List.map_take]
    exact List.Nodup.sublist (List.take_sublist 3 _) hSkeys
  · -- commonCounties membership
    intro c hc
    rw [hccEq] at hc
    obtain ⟨q, hq, rfl⟩ := List.mem_map.mp hc
    have hperm := List.perm_insertionSort
      (fun (a b : String × ℕ) => b.2 ≤ a.2) (countyCountList reports)
    have hqC : (q.1, q.2) ∈ countListOf (reports.map (fun r => r.county)) :=
      hperm.mem_iff.mp (List.take_subset 3 _ hq)
    exact (countListOf_mem_spec (reports.map (fun r => r.county))
      q.1 q.2 hqC).1
  · -- commonCounties domination
    intro c hc c2 hc2 hnc2
    have hperm := List.perm_insertionSort
      (fun (a b : String × ℕ) => b.2 ≤ a.2) (countyCountList reports)
    haveI : IsTotal (String × ℕ) (fun a b => b.2 ≤ a.2) :=
      ⟨fun a b => le_total b.2 a.2⟩
    haveI : IsTrans (String × ℕ) (fun a b => b.2 ≤ a.2) :=
      ⟨fun _ _ _ hab hbc => le_trans hbc hab⟩
    have hsorted : List.Sorted (fun (a b : String × ℕ) => b.2 ≤ a.2)
        (List.insertionSort (fun a b => b.2 ≤ a.2)
          (countyCountList reports)) := List.sorted_insertionSort _ _
    rw [hccEq] at hc hnc2
    obtain ⟨q, hq, rfl⟩ := List.mem_map.mp hc
    have hq2mem : (c2, (reports.map (fun r => r.county)).count c2) ∈
        countyCountList reports := countListOf_exists _ c2 hc2
    have hq2S : (c2, (reports.map (fun r => r.county)).count c2) ∈
        List.insertionSort (fun a b => b.2 ≤ a.2) (countyCountList reports) :=
      hperm.mem_iff.mpr hq2mem
    have hS2 : List.insertionSort (fun (a b : String × ℕ) => b.2 ≤ a.2)
          (countyCountList reports) =
        (List.insertionSort (fun (a b : String × ℕ) => b.2 ≤ a.2)
          (countyCountList reports)).take 3 ++
        (List.insertionSort (fun (a b : String × ℕ) => b.2 ≤ a.2)
          (countyCountList reports)).drop 3 :=
      (List.take_append_drop 3 _).symm
    have hq2drop : (c2, (reports.map (fun r => r.county)).count c2) ∈
        (List.insertionSort (fun (a b : String × ℕ) => b.2 ≤ a.2)
          (countyCountList reports)).drop 3 := by
      rw [hS2] at hq2S
      rcases List.mem_append.mp hq2S with hin | hin
      · exact absurd (List.mem_map.mpr ⟨_, hin, rfl⟩) hnc2
      · exact hin
    have hpw := List.pairwise_append.mp (hS2 ▸ hsorted)
    have hle : (reports.map (fun r => r.county)).count c2 ≤ q.2 :=
      hpw.2.2 q hq _ hq2drop
    have hqC : (q.1, q.2) ∈ countListOf (reports.map (fun r => r.county)) :=
      hperm.mem_iff.mp (List.take_subset 3 _ hq)
    have hqspec := countListOf_mem_spec (reports.map (fun r => r.county))
      q.1 q.2 hqC
    rw [← hqspec.2]
    exact hle
  · -- time pattern, recent
    rw [htpEq]
    exact (timePatternOf_spec _).1
  · -- time pattern, historical
    rw [htpEq]
    exact (timePatternOf_spec _).2.1

/-- Witness for C8: the three-member cluster `clusterW` (two police
reports, one tax report, amounts 10 and 30) is non-empty and exercises the
positive-amount branch of the average. -/
theorem analyzeCluster_spec_witness :
    clusterW ≠ [] ∧
    (analyzeCluster 0 clusterW).reportCount = clusterW.length ∧
    (analyzeCluster 0 clusterW).averageAmount =
      ((clusterW.map amountOf).filter (fun a => decide (0 < a))).sum /
        (((clusterW.map amountOf).filter (fun a => decide (0 < a))).length : ℚ) := by
  have hne : clusterW ≠ [] := by simp [clusterW]
  have hspec := analyzeCluster_spec 0 clusterW hne
  refine ⟨hne, hspec.2.2.1, hspec.2.1.1 ?_⟩
  have h10 : (decide ((0:ℚ) < 10)) = true := decide_eq_true (by norm_num)
  have h30 : (decide ((0:ℚ) < 30)) = true := decide_eq_true (by norm_num)
  have h0 : (decide ((0:ℚ) < 0)) = false := decide_eq_false (by norm_num)
  simp only [clusterW, rptC8c, rptC8d, sampleReport, amountOf, List.map,
    Option.getD, List.filter, h10, h30, h0]
  simp

/-- Counterexample for C8 as stated: a two-member cluster whose agencies
are police (seen first) and tax (seen last), each with count 1.  The
claim's first-seen tie-break predicts police; the code's reduce keeps the
later entry on ties and returns tax. -/
theorem analyzeCluster_tie_counterexample :
    (analyzeCluster 0 [rptC8a, rptC8b]).dominantAgency = Agency.tax ∧
    Agency.tax ≠ Agency.police := by
  refine ⟨rfl, by decide⟩

/-! ## C1: the returned clusters partition the batch

`clusterReports` succeeds only when `kMeans` succeeds, and `kMeans` (per the
C4 analysis) succeeds exactly when the first computed assignment equals the
initial all-zero assignment vector, in which case it returns the initial
centroids together with the assignment of each report to its nearest
centroid.  Whatever that assignment function is, `buildClusters` groups the
reports by their assigned index over `0..k-1` and keeps the non-empty
groups, which yields a partition; the lemmas below establish this for an
arbitrary assignment function `g` bounded by `k` and the theorem composes
them through the success hypothesis. -/

theorem argMinAux_lt (xs : List ℚ) : ∀ (i b : ℕ) (bv : ℚ) (n : ℕ),
    b < n → i + xs.length ≤ n → argMinAux i b bv xs < n := by
  induction xs with
  | nil =>
    intro i b bv n hb _
    simpa [argMinAux] using hb
  | cons x t ih =>
    intro i b bv n hb hi
    simp only [List.length_cons] at hi
    simp only [argMinAux]
    by_cases hx : x < bv
    · rw [if_pos hx]
      exact ih (i + 1) i x n (by omega) (by omega)
    · rw [if_neg hx]
      exact ih (i + 1) b bv n hb (by omega)

/-- `tf.argMin` over a non-empty row of distances returns an index inside
the row. -/
theorem argMinIdx_lt (l : List ℚ) (h : l ≠ []) : argMinIdx l < l.length := by
  cases l with
  | nil => exact absurd rfl h
  | cons x xs =>
    simp only [argMinIdx, List.length_cons]
    exact argMinAux_lt xs 1 0 x (xs.length + 1) (by omega) (by omega)

/-- A successful `kMeansLoop` step (positive fuel) can only be the
early-exit branch — the centroid update raises — so the returned centroids
are the input ones and the returned assignments are their nearest-centroid
assignment. -/
theorem kMeansLoop_ok (data : List (List ℚ)) (k nf : ℕ)
    (rnd : ℕ → ℕ → List ℚ) (fuel : ℕ) (c : List (List ℚ)) (a : List ℕ)
    (p : List (List ℚ) × List ℕ)
    (h : kMeansLoop data k nf rnd (fuel + 1) c a = Except.ok p) :
    p.1 = c ∧ p.2 = assignToCentroids data c := by
  simp only [kMeansLoop] at h
  by_cases hch : assignToCentroids data c = a
  · rw [if_pos hch] at h
    have h2 := Except.ok.inj h
    exact ⟨(congrArg Prod.fst h2).symm, (congrArg Prod.snd h2).symm⟩
  · rw [if_neg hch] at h
    simp [updateCentroids] at h

/-- A successful `kMeans` run returns the initial centroids (the data rows
at the shuffled indices) and the assignment of each data point to the
nearest of those centroids. -/
theorem kMeans_ok (data : List (List ℚ)) (k : ℕ) (initIdx : List ℕ)
    (rnd : ℕ → ℕ → List ℚ) (p : List (List ℚ) × List ℕ)
    (h : kMeans data k initIdx rnd 100 = Except.ok p) :
    p.1 = gatherRows data initIdx ∧ p.2 = assignToCentroids data p.1 := by
  have h2 : kMeansLoop data k (data.headD []).length rnd (99 + 1)
      (gatherRows data initIdx) (List.replicate data.length 0) =
      Except.ok p := h
  have h3 := kMeansLoop_ok data k (data.headD []).length rnd 99
    (gatherRows data initIdx) (List.replicate data.length 0) p h2
  exact ⟨h3.1, by rw [h3.2, h3.1]⟩

/-- The guarded body of `clusterReportsInner`, with the `let`-bound county
map and vectors inlined. -/
theorem clusterReportsInner_eq (env : ClusterEnv) (initIdx : List ℕ)
    (rnd : ℕ → ℕ → List ℚ) (reports : List Report) (k : ℕ)
    (h : ¬ reports.length < k) :
    clusterReportsInner env initIdx rnd reports k =
      match kMeans (reports.map (reportToVector env (createCountyMap reports)))
          k initIdx rnd 100 with
      | Except.error e => Except.error e
      | Except.ok ca => Except.ok (buildClusters env.now reports ca.2 ca.1 k) := by
  unfold clusterReportsInner
  rw [if_neg h]

/-- Membership of the assigned index: a report in the bucket of index `i`
under the assignment vector `reports.map g` satisfies `g r = i`. -/
theorem clusterMembers_map (reports : List Report) (g : Report → ℕ) (i : ℕ) :
    clusterMembers reports (reports.map g) i =
      reports.filter (fun r => decide (g r = i)) := by
  unfold clusterMembers
  induction reports with
  | nil => rfl
  | cons r t ih =>
    simp only [List.map_cons, List.zip_cons_cons, List.filter_cons]
    by_cases hgi : g r = i
    · simp [hgi, ih]
    · simp [hgi, ih]

theorem flatten_map_nil {α β : Type} (xs : List α) :
    (xs.map (fun _ => ([] : List β))).flatten = [] := by
  induction xs with
  | nil => rfl
  | cons x t ih =>
    rw [List.map_cons, List.flatten_cons, List.nil_append, ih]

/-- Dropping the empty lists does not change the concatenation. -/
theorem flatten_filter_ne_nil {α : Type} [DecidableEq α] (L : List (List α)) :
    (L.filter (fun l => !decide (l = []))).flatten = L.flatten := by
  induction L with
  | nil => rfl
  | cons l t ih =>
    rw [List.filter_cons]
    by_cases hl : l = []
    · subst hl
      simp [ih]
    · have hd : (!decide (l = [])) = true := by
        rw [decide_eq_false hl]
        rfl
      rw [if_pos hd, List.flatten_cons, List.flatten_cons, ih]

/-- Consing one element onto the bucket of its own index permutes the
concatenation of the buckets by one extra front element, provided the index
occurs exactly once in the index list. -/
theorem flatten_update_cons {α : Type} (f : ℕ → List α) (j : ℕ) (a : α) :
    ∀ (xs : List ℕ), j ∈ xs → xs.Nodup →
    ((xs.map (fun i => if j = i then a :: f i else f i)).flatten).Perm
      (a :: (xs.map f).flatten) := by
  intro xs
  induction xs with
  | nil => intro hmem _; exact absurd hmem (List.not_mem_nil j)
  | cons x t ih =>
    intro hmem hnd
    by_cases hj : j = x
    · subst hj
      have hnot : j ∉ t := (List.nodup_cons.mp hnd).1
      have hmap : t.map (fun i => if j = i then a :: f i else f i) =
          t.map f :=
        List.map_congr_left (fun i hi =>
          if_neg (fun (he : j = i) => absurd hi (he ▸ hnot)))
      rw [List.map_cons, List.map_cons, if_pos rfl, List.flatten_cons,
        List.flatten_cons, hmap]
      exact List.Perm.refl _
    · have hmem2 : j ∈ t := by
        rcases List.mem_cons.mp hmem with h1 | h2
        · exact absurd h1 hj
        · exact h2
      have hnd2 : t.Nodup := (List.nodup_cons.mp hnd).2
      rw [List.map_cons, List.map_cons, if_neg hj, List.flatten_cons,
        List.flatten_cons]
      refine List.Perm.trans
        (List.Perm.append_left (f x) (ih hmem2 hnd2)) ?_
      exact List.perm_middle

/-- Grouping a list into the buckets of a bounded index function and
concatenating the buckets permutes the original list. -/
theorem flatten_buckets_perm (g : Report → ℕ) (k : ℕ) :
    ∀ (l : List Report), (∀ r ∈ l, g r < k) →
    (((List.range k).map (fun i =>
        l.filter (fun r => decide (g r = i)))).flatten).Perm l := by
  intro l
  induction l with
  | nil =>
    intro _
    rw [List.perm_nil]
    have h1 : (List.range k).map
        (fun i => ([] : List Report).filter (fun r => decide (g r = i))) =
        (List.range k).map (fun _ => ([] : List Report)) :=
      List.map_congr_left (fun i _ => List.filter_nil _)
    rw [h1, flatten_map_nil]
  | cons r t ih =>
    intro hg
    have hgr : g r < k := hg r (List.mem_cons_self r t)
    have hmap : (List.range k).map
        (fun i => (r :: t).filter (fun x => decide (g x = i))) =
        (List.range k).map (fun i =>
          if g r = i then r :: t.filter (fun x => decide (g x = i))
          else t.filter (fun x => decide (g x = i))) := by
      refine List.map_congr_left (fun i _ => ?_)
      rw [List.filter_cons]
      by_cases hgi : g r = i
      · rw [if_pos (decide_eq_true hgi), if_pos hgi]
      · rw [decide_eq_false hgi, if_neg Bool.false_ne_true, if_neg hgi]
    rw [hmap]
    refine List.Perm.trans
      (flatten_update_cons (fun i => t.filter (fun x => decide (g x = i)))
        (g r) r (List.range k) (List.mem_range.mpr hgr) (List.nodup_range k))
      ?_
    exact List.Perm.cons r (ih (fun x hx => hg x (List.mem_cons_of_mem r hx)))

theorem sum_map_length_flatten {α : Type} :
    ∀ (L : List (List α)),
    (L.map (fun l => l.length)).sum = L.flatten.length := by
  intro L
  induction L with
  | nil => rfl
  | cons l t ih =>
    rw [List.map_cons, List.flatten_cons, List.sum_cons, List.length_append,
      ih]

/-- `filterMap` preserves pairwise relations that hold across any two
produced values. -/
theorem pairwise_filterMap_of {α β : Type} (f : α → Option β)
    (S : β → β → Prop) :
    ∀ (xs : List α),
    List.Pairwise
      (fun i j => ∀ b b2, f i = some b → f j = some b2 → S b b2) xs →
    List.Pairwise S (xs.filterMap f) := by
  intro xs
  induction xs with
  | nil => intro _; exact List.Pairwise.nil
  | cons x t ih =>
    intro hp
    rw [List.filterMap_cons]
    cases hfx : f x with
    | none => exact ih hp.of_cons
    | some b =>
      show List.Pairwise S (b :: t.filterMap f)
      refine List.Pairwise.cons ?_ (ih hp.of_cons)
      intro b2 hb2
      rw [List.mem_filterMap] at hb2
      obtain ⟨j, hj, hfj⟩ := hb2
      exact (List.pairwise_cons.mp hp).1 j hj b b2 hfx hfj

theorem buildClusters_map_reports_aux (now : ℚ) (reports : List Report)
    (assignments : List ℕ) (cvals : List (List ℚ)) :
    ∀ (xs : List ℕ),
    ((xs.filterMap (fun i =>
        if 0 < (clusterMembers reports assignments i).length then
          some ({ id := i, centroid := cvals.getD i [],
                  reports := clusterMembers reports assignments i,
                  characteristics :=
                    analyzeCluster now (clusterMembers reports assignments i) } :
                Cluster)
        else none)).map (fun c => c.reports)) =
      (xs.map (fun i => clusterMembers reports assignments i)).filter
        (fun l => !decide (l = [])) := by
  intro xs
  induction xs with
  | nil => rfl
  | cons x t ih =>
    by_cases hlen : 0 < (clusterMembers reports assignments x).length
    · have hne : clusterMembers reports assignments x ≠ [] :=
        List.ne_nil_of_length_pos hlen
      simpa [List.filterMap_cons, List.filter_cons, hlen, hne] using ih
    · have h0 : clusterMembers reports assignments x = [] :=
        List.length_eq_zero.mp (Nat.eq_zero_of_not_pos hlen)
      simpa [List.filterMap_cons, List.filter_cons, h0] using ih

/-- The member lists of the materialized clusters are exactly the
non-empty buckets, in index order. -/
theorem buildClusters_map_reports (now : ℚ) (reports : List Report)
    (assignments : List ℕ) (cvals : List (List ℚ)) (k : ℕ) :
    (buildClusters now reports assignments cvals k).map (fun c => c.reports) =
      ((List.range k).map (fun i => clusterMembers reports assignments i)).filter
        (fun l => !decide (l = [])) := by
  unfold buildClusters
  exact buildClusters_map_reports_aux now reports assignments cvals
    (List.range k)

/-- Inverting the `some` branch of the `buildClusters` body: the produced
cluster stores the bucket of its index. -/
theorem buildClusters_some_reports (now : ℚ) (reports : List Report)
    (assignments : List ℕ) (cvals : List (List ℚ)) (i : ℕ) (c : Cluster)
    (h : (if 0 < (clusterMembers reports assignments i).length then
        some ({ id := i, centroid := cvals.getD i [],
                reports := clusterMembers reports assignments i,
                characteristics :=
                  analyzeCluster now (clusterMembers reports assignments i) } :
              Cluster)
      else none) = some c) :
    c.reports = clusterMembers reports assignments i := by
  by_cases hlen : 0 < (clusterMembers reports assignments i).length
  · rw [if_pos hlen] at h
    exact congrArg Cluster.reports (Option.some.inj h).symm
  · rw [if_neg hlen] at h
    exact absurd h (by simp)

/-- Every materialized cluster is non-empty, its `reportCount` is its
member count, and its member list is one of the buckets. -/
theorem buildClusters_mem_inv (now : ℚ) (reports : List Report)
    (assignments : List ℕ) (cvals : List (List ℚ)) (k : ℕ) (c : Cluster)
    (hc : c ∈ buildClusters now reports assignments cvals k) :
    c.reports ≠ [] ∧ c.characteristics.reportCount = c.reports.length ∧
      ∃ i, c.reports = clusterMembers reports assignments i := by
  unfold buildClusters at hc
  rw [List.mem_filterMap] at hc
  obtain ⟨i, _, hfi⟩ := hc
  have hfi2 : (if 0 < (clusterMembers reports assignments i).length then
      some ({ id := i, centroid := cvals.getD i [],
              reports := clusterMembers reports assignments i,
              characteristics :=
                analyzeCluster now (clusterMembers reports assignments i) } :
            Cluster)
    else none) = some c := hfi
  by_cases hlen : 0 < (clusterMembers reports assignments i).length
  · rw [if_pos hlen] at hfi2
    have hc2 := Option.some.inj hfi2
    have e1 : c.reports = clusterMembers reports assignments i :=
      congrArg Cluster.reports hc2.symm
    have e3 : c.characteristics.reportCount =
        (clusterMembers reports assignments i).length :=
      congrArg (fun cl => cl.characteristics.reportCount) hc2.symm
    refine ⟨?_, ?_, ⟨i, e1⟩⟩
    · rw [e1]
      exact List.ne_nil_of_length_pos hlen
    · rw [e3, e1]
  · rw [if_neg hlen] at hfi2
    exact absurd hfi2 (by simp)

/-- For any assignment vector of the form `reports.map g` with `g` bounded
by `k`, the materialized clusters partition the batch: their member lists
concatenate to a permutation of the batch, are all non-empty and pairwise
disjoint, and their report counts sum to the batch size. -/
theorem buildClusters_partition (now : ℚ) (reports : List Report)
    (g : Report → ℕ) (cvals : List (List ℚ)) (k : ℕ)
    (hg : ∀ r ∈ reports, g r < k) :
    (((buildClusters now reports (reports.map g) cvals k).map
        (fun c => c.reports)).flatten).Perm reports ∧
      (∀ c ∈ buildClusters now reports (reports.map g) cvals k,
        c.reports ≠ []) ∧
      List.Pairwise (fun c c' => ∀ r ∈ c.reports, r ∉ c'.reports)
        (buildClusters now reports (reports.map g) cvals k) ∧
      ((buildClusters now reports (reports.map g) cvals k).map
        (fun c => c.characteristics.reportCount)).sum = reports.length := by
  have hA : (((buildClusters now reports (reports.map g) cvals k).map
      (fun c => c.reports)).flatten).Perm reports := by
    rw [buildClusters_map_reports, flatten_filter_ne_nil]
    have hq : (List.range k).map
        (fun i => clusterMembers reports (reports.map g) i) =
        (List.range k).map
          (fun i => reports.filter (fun r => decide (g r = i))) :=
      List.map_congr_left (fun i _ => clusterMembers_map reports g i)
    rw [hq]
    exact flatten_buckets_perm g k reports hg
  refine ⟨hA, ?_, ?_, ?_⟩
  · intro c hc
    exact (buildClusters_mem_inv now reports (reports.map g) cvals k c hc).1
  · unfold buildClusters
    refine pairwise_filterMap_of _ _ (List.range k) ?_
    have hnd : List.Pairwise (fun i j => i ≠ j) (List.range k) :=
      List.nodup_range k
    refine List.Pairwise.imp ?_ hnd
    intro i j hij
    intro b b2 hfi hfj r hrb hrb2
    have hbi : b.reports = clusterMembers reports (reports.map g) i :=
      buildClusters_some_reports now reports (reports.map g) cvals i b hfi
    have hbj : b2.reports = clusterMembers reports (reports.map g) j :=
      buildClusters_some_reports now reports (reports.map g) cvals j b2 hfj
    rw [hbi, clusterMembers_map reports g i] at hrb
    rw [hbj, clusterMembers_map reports g j] at hrb2
    have h1 : g r = i := of_decide_eq_true (List.mem_filter.mp hrb).2
    have h2 : g r = j := of_decide_eq_true (List.mem_filter.mp hrb2).2
    exact hij (h1.symm.trans h2)
  · have h1 : (buildClusters now reports (reports.map g) cvals k).map
        (fun c => c.characteristics.reportCount) =
        (buildClusters now reports (reports.map g) cvals k).map
          (fun c => c.reports.length) :=
      List.map_congr_left (fun c hc =>
        (buildClusters_mem_inv now reports (reports.map g) cvals k c hc).2.1)
    rw [h1]
    have h2 : (buildClusters now reports (reports.map g) cvals k).map
        (fun c => c.reports.length) =
        ((buildClusters now reports (reports.map g) cvals k).map
          (fun c => c.reports)).map (fun l => l.length) := by
      rw [List.map_map]
      rfl
    rw [h2, sum_map_length_flatten]
    exact hA.length_eq

set_option maxHeartbeats 1600000 in
/-- Claim C1: for every batch `R` and every `k` between 1 and `|R|`, when
`clusterReports(R, k)` returns clusters, they partition `R`: the member
lists concatenate to a permutation of `R` (so their union is `R` as a
multiset), every returned cluster is non-empty, no report belongs to two
clusters, and the `characteristics.reportCount` fields sum to `|R|`.  The
hypothesis `initIdx.length = k` renders the source's
`createShuffledIndices(numPoints).slice(0, k)`, which has length `k`
whenever `k ≤ numPoints`. -/
theorem clusterReports_partition (env : ClusterEnv) (initIdx : List ℕ)
    (rnd : ℕ → ℕ → List ℚ) (reports : List Report) (k : ℕ)
    (clusters : List Cluster)
    (hk : 1 ≤ k) (hkR : k ≤ reports.length) (hinit : initIdx.length = k)
    (hok : clusterReports env initIdx rnd reports k = Except.ok clusters) :
    ((clusters.map (fun c => c.reports)).flatten).Perm reports ∧
      (∀ c ∈ clusters, c.reports ≠ []) ∧
      List.Pairwise (fun c c' => ∀ r ∈ c.reports, r ∉ c'.reports) clusters ∧
      (clusters.map (fun c => c.characteristics.reportCount)).sum =
        reports.length := by
  have hok2 : clusterReportsInner env initIdx rnd reports k =
      Except.ok clusters := by
    cases h2 : clusterReportsInner env initIdx rnd reports k with
    | ok v =>
      have hv : v = clusters := by
        have h3 : Except.ok (ε := String) v = Except.ok clusters := by
          rw [← hok]
          unfold clusterReports
          rw [h2]
        exact Except.ok.inj h3
      exact congrArg Except.ok hv
    | error e =>
      exfalso
      have h3 : Except.error (α := List Cluster)
          "Failed to cluster reports" = Except.ok clusters := by
        rw [← hok]
        unfold clusterReports
        rw [h2]
      exact Except.noConfusion h3
  rw [clusterReportsInner_eq env initIdx rnd reports k
    (not_lt.mpr hkR)] at hok2
  cases hkm : kMeans (reports.map (reportToVector env (createCountyMap
      reports))) k initIdx rnd 100 with
  | error e =>
    rw [hkm] at hok2
    simp at hok2
  | ok ca =>
    rw [hkm] at hok2
    obtain ⟨cvals, a2⟩ := ca
    have h5 : Except.ok (ε := String)
        (buildClusters env.now reports a2 cvals k) = Except.ok clusters :=
      hok2
    have hceq : buildClusters env.now reports a2 cvals k = clusters :=
      Except.ok.inj h5
    subst hceq
    have hkm2 := kMeans_ok
      (reports.map (reportToVector env (createCountyMap reports))) k initIdx
      rnd (cvals, a2) hkm
    have hc2 : cvals = gatherRows
        (reports.map (reportToVector env (createCountyMap reports)))
        initIdx := hkm2.1
    have ha2 : a2 = assignToCentroids
        (reports.map (reportToVector env (createCountyMap reports)))
        cvals := hkm2.2
    have hclen : cvals.length = k := by
      rw [hc2]
      unfold gatherRows
      rw [List.length_map]
      exact hinit
    have hassign : a2 = reports.map (fun r =>
        argMinIdx (cvals.map (fun c =>
          sqDist (reportToVector env (createCountyMap reports) r) c))) := by
      rw [ha2]
      unfold assignToCentroids
      rw [List.map_map]
      rfl
    have hg : ∀ r ∈ reports,
        argMinIdx (cvals.map (fun c =>
          sqDist (reportToVector env (createCountyMap reports) r) c)) < k := by
      intro r _
      have hne : cvals.map (fun c =>
          sqDist (reportToVector env (createCountyMap reports) r) c) ≠ [] := by
        intro hnil
        have hlen0 := congrArg List.length hnil
        rw [List.length_map, hclen, List.length_nil] at hlen0
        omega
      have halt := argMinIdx_lt _ hne
      rw [List.length_map, hclen] at halt
      exact halt
    rw [hassign]
    exact buildClusters_partition env.now reports _ cvals k hg

set_option maxHeartbeats 1600000 in
/-- Witness for C1: the singleton batch with `k = 1` succeeds (the first
assignment equals the all-zero initial assignment, so the centroid-update
bug is not reached) and returns one cluster holding the one report. -/
theorem clusterReports_partition_witness :
    ∃ clusters,
      clusterReports cenv0 [0] rnd0 [rptC1] 1 = Except.ok clusters ∧
      (((clusters.map (fun c => c.reports)).flatten).Perm [rptC1] ∧
        (∀ c ∈ clusters, c.reports ≠ []) ∧
        List.Pairwise (fun c c' => ∀ r ∈ c.reports, r ∉ c'.reports)
          clusters ∧
        (clusters.map (fun c => c.characteristics.reportCount)).sum =
          ([rptC1] : List Report).length) := by
  refine ⟨_, rfl, clusterReports_partition cenv0 [0] rnd0 [rptC1] 1 _
    (le_refl 1) (by decide) rfl rfl⟩

end Mulika
